import Mathlib

/-!
Data explorer (cmd/dataexpl) and miner withdrawal : retrieval negotiation, archive opening, link
classification, handlers, withdraw messages.

A shallow embedding of `retrieve`, `get`, `getCar`, `pathToSel`, `parseLinks`, `linkDesc` and of
parts of the HTTP handlers from `src/cmd/dataexpl/dataexpl.go`, and in the namespace `Impl` of
`withdrawBalance` from `src/node/impl/full.go` and of the action of the withdraw command from
`src/cli/withdraw.go`.  Remote services and library calls are inputs of the embedding: every
call the Go code makes on them is a field of an environment record, and the calls a function
performs are returned next to its result as a trace.
-/

namespace Dataexpl

/-! ## Basic data -/

/-- Byte strings, one natural number below 256 per byte. -/
abbrev Bytes := List Nat

/-- An `address.Address`, by its textual form. -/
abbrev Address := String

/-- A `lapi.Selector`: a serialized selector. -/
abbrev Selector := String

/-- A `cid.Cid`: the codec returned by `Type()` and the multihash bytes. -/
structure Cid where
  codec : Nat
  hash : List Nat
deriving DecidableEq

/-- Codec `cid.DagProtobuf`. -/
def DagProtobuf : Nat := 0x70

/-- Codec `cid.Raw`. -/
def Raw : Nat := 0x55

/-- Codec `cid.DagCBOR`. -/
def DagCBOR : Nat := 0x71

/-- Go errors, by their message. -/
abbrev Err := String

deriving instance DecidableEq for Except

/-! ## Retrieval negotiation (`retrieve`) -/

/-- The values of `retrievalmarket.DealStatus` that `retrieve` switches on; every other value
of the enumeration (declared in go-fil-markets) is `Other` with its numeric code. -/
inductive DealStatus
  | Completed
  | Rejected
  | DealNotFound
  | Errored
  | Other (code : Nat)
deriving DecidableEq

/-- The fields of `lapi.RetrievalInfo` read by `retrieve`. -/
structure RetrievalInfo where
  ID : Nat
  Status : DealStatus
  Message : String
  BytesReceived : Nat
  TotalPaid : Int
  Event : Option Nat
deriving DecidableEq

/-- The fields of `lapi.QueryOffer` read by `retrieve`. -/
structure QueryOffer where
  Err : String
  Root : Cid
  Piece : Option Cid
  MinPrice : Int
  Miner : Address
deriving DecidableEq

/-- The order `offer.Order(payer)` with its `DataSelector` field.  `Order` is declared in the
api package; the order is kept as the pair of its two inputs. -/
structure RetrievalOrder where
  offer : QueryOffer
  Client : Address
  DataSelector : Option Selector
deriving DecidableEq

/-- The result `lapi.RestrievalRes` of `ClientRetrieve`. -/
structure RestrievalRes where
  DealID : Nat
deriving DecidableEq

/-- The record `lapi.DagSpec`. -/
structure DagSpec where
  DataSelector : Option Selector
  ExportMerkleProof : Bool
deriving DecidableEq

/-- The record `lapi.ExportRef`. -/
structure ExportRef where
  Root : Cid
  DAGs : List DagSpec
  DealID : Nat
deriving DecidableEq

/-- One outcome of the `select` statement of the event loop: the context is done, or an event
was received from the subscription channel. -/
inductive SelectCase
  | ctxDone
  | recv (evt : RetrievalInfo)
deriving DecidableEq

/-- The calls `retrieve` makes on the full node, in the order they are issued.  The call
`ClientCancelRetrievalDeal` is issued from a goroutine started just before the return; its
answer is only logged. -/
inductive ApiCall
  | WalletDefaultAddress
  | ClientMinerQueryOffer (miner : Address) (file : Cid) (piece : Cid)
  | ClientGetRetrievalUpdates
  | ClientRetrieve (o : RetrievalOrder)
  | ClientCancelRetrievalDeal (id : Nat)
deriving DecidableEq

/-- The answers of the full node (`lapi.FullNode`) to the calls of `retrieve`, and the
formatter `types.FIL` used in the price error. -/
structure FullNode where
  WalletDefaultAddress : Except Err Address
  ClientMinerQueryOffer : Address → Cid → Cid → Except Err QueryOffer
  ClientGetRetrievalUpdates : Except Err Unit
  ClientRetrieve : RetrievalOrder → Except Err RestrievalRes
  ClientCancelRetrievalDeal : Nat → Except Err Unit
  FIL : Int → String

/-- How the `readEvents` loop is left. -/
inductive LoopExit
  | completed
  | failed (e : Err)
  | timedOut
  | waiting
deriving DecidableEq

/-- The `readEvents` loop of `retrieve` (lines 984-1029) for deal `dealID`, run on the sequence
of `select` outcomes.  It returns how the loop is left and the outcomes not consumed; with no
outcome left the `select` blocks (`waiting`).  The progress line written to standard output
is not part of the state. -/
def readEvents (dealID : Nat) : List SelectCase → LoopExit × List SelectCase
  | [] => (LoopExit.waiting, [])
  | SelectCase.ctxDone :: rest => (LoopExit.timedOut, rest)
  | SelectCase.recv evt :: rest =>
    if evt.ID ≠ dealID then readEvents dealID rest
    else
      match evt.Status with
      | DealStatus.Completed => (LoopExit.completed, rest)
      | DealStatus.Rejected =>
        (LoopExit.failed ("Retrieval Proposal Rejected: " ++ evt.Message), rest)
      | DealStatus.DealNotFound => (LoopExit.failed ("Retrieval Error: " ++ evt.Message), rest)
      | DealStatus.Errored => (LoopExit.failed ("Retrieval Error: " ++ evt.Message), rest)
      | DealStatus.Other _ => readEvents dealID rest

/-- What a run of `retrieve` produced: the returned pair (`none` while the event loop is still
blocked in `select`), the calls made on the full node, and the `select` outcomes left. -/
structure RetrieveRun where
  result : Option (Except Err ExportRef)
  calls : List ApiCall
  pending : List SelectCase
deriving DecidableEq

/-- The function `retrieve` (lines 943-1038).  `sched` is the sequence of outcomes of the
`select` in the event loop. -/
def retrieve (fapi : FullNode) (minerAddr : Address) (pieceCid file : Cid) (sel : Selector)
    (sched : List SelectCase) : RetrieveRun :=
  let t1 := [ApiCall.WalletDefaultAddress]
  match fapi.WalletDefaultAddress with
  | Except.error err => ⟨some (Except.error err), t1, sched⟩
  | Except.ok payer =>
    let t2 := t1 ++ [ApiCall.ClientMinerQueryOffer minerAddr file pieceCid]
    match fapi.ClientMinerQueryOffer minerAddr file pieceCid with
    | Except.error err => ⟨some (Except.error ("offer: " ++ err)), t2, sched⟩
    | Except.ok offer =>
      if offer.Err ≠ "" then ⟨some (Except.error ("offer error: " ++ offer.Err)), t2, sched⟩
      else
        let maxPrice : Int := 0
        if offer.MinPrice > maxPrice then
          ⟨some (Except.error ("failed to find offer satisfying maxPrice: " ++ toString maxPrice
            ++ " (min " ++ toString offer.MinPrice ++ ", " ++ fapi.FIL offer.MinPrice ++ ")")),
            t2, sched⟩
        else
          let o : RetrievalOrder := ⟨offer, payer, some sel⟩
          let t3 := t2 ++ [ApiCall.ClientGetRetrievalUpdates]
          match fapi.ClientGetRetrievalUpdates with
          | Except.error err =>
            ⟨some (Except.error ("error setting up retrieval updates: " ++ err)), t3, sched⟩
          | Except.ok _ =>
            let t4 := t3 ++ [ApiCall.ClientRetrieve o]
            match fapi.ClientRetrieve o with
            | Except.error err =>
              ⟨some (Except.error ("error setting up retrieval: " ++ err)), t4, sched⟩
            | Except.ok retrievalRes =>
              match readEvents retrievalRes.DealID sched with
              | (LoopExit.waiting, rest) => ⟨none, t4, rest⟩
              | (LoopExit.timedOut, rest) =>
                ⟨some (Except.error "Retrieval Timed Out"),
                  t4 ++ [ApiCall.ClientCancelRetrievalDeal retrievalRes.DealID], rest⟩
              | (LoopExit.failed e, rest) => ⟨some (Except.error e), t4, rest⟩
              | (LoopExit.completed, rest) =>
                ⟨some (Except.ok ⟨file, [], retrievalRes.DealID⟩), t4, rest⟩

/-! ## Opening the retrieved archive (`get`) -/

/-- The read-only CAR block store returned by `blockstore.NewReadOnly` (go-car): what `Roots()`
answers and the block held for each whole CID. -/
structure ReadOnlyCar where
  Roots : Except Err (List Cid)
  Get : Cid → Option Bytes

/-- The two tiers of a tiered block store. -/
inductive Tier
  | cold
  | warm
deriving DecidableEq

/-- Modelled from the spec: the store type behind `bstore.NewTieredBstore` (package
`blockstore`, not under src): an ordered pair of a cold read-only block source and a warm
in-memory block map. -/
structure TieredBstore where
  cold : Cid → Option Bytes
  warm : List (Cid × Bytes)

/-- Modelled from the spec: `bstore.Adapt` (package `blockstore`, not under src) presents the
read-only archive store as a block source, reads unchanged. -/
def Adapt (cbs : ReadOnlyCar) : Cid → Option Bytes := cbs.Get

/-- Modelled from the spec: `bstore.NewMemory` (package `blockstore`, not under src) is an
empty in-memory block map. -/
def NewMemory : List (Cid × Bytes) := []

/-- Modelled from the spec: `bstore.NewTieredBstore` (package `blockstore`, not under src)
pairs its first argument as the cold tier with its second as the warm tier. -/
def NewTieredBstore (r : Cid → Option Bytes) (w : List (Cid × Bytes)) : TieredBstore := ⟨r, w⟩

/-- Modelled from the spec: the read path of the tiered store (package `blockstore`, not under
src) checks the read-only source first and the overlay second; the warm tier is checked only
if the cold tier does not hold the key.  The second component lists the tiers consulted. -/
def TieredBstore.Get (t : TieredBstore) (k : Cid) : Option Bytes × List Tier :=
  match t.cold k with
  | some b => (some b, [Tier.cold])
  | none => (t.warm.lookup k, [Tier.cold, Tier.warm])

/-- A `format.Link`. -/
structure Link where
  Name : String
  Size : Nat
  Cid : Cid
deriving DecidableEq

/-- A `format.Node`: whether its dynamic type is `*merkledag.ProtoNode`, the `Data()` of the
protobuf node, its `RawData()` and its `Links()`. -/
structure Node where
  isProtoNode : Bool
  Data : Bytes
  RawData : Bytes
  Links : List Link
deriving DecidableEq

/-- A `format.DAGService`, by its `Get` method. -/
structure DAGService where
  Get : Cid → Except Err Node

/-- The Merkle-DAG node service `merkledag.NewDAGService(blockservice.New(bs, offline.Exchange(bs)))`
over the tiered store: a block read from the store is decoded by the library into a node, a missing
block is the not-found error of the library. -/
def NewDAGService (decode : Cid → Bytes → Except Err Node) (notFound : Cid → Err)
    (bs : TieredBstore) : DAGService :=
  ⟨fun c => match (bs.Get c).1 with
    | some b => decode c b
    | none => Except.error (notFound c)⟩

/-- The closure returned by `get` (lines 1255-1287), applied to the selector spec `ss`.
`gc` is the closure returned by `getCar`; its stream is given by what `io.Copy` reads from it.
`NewReadOnly` is the go-car constructor applied to the copied bytes. -/
def get {σ : Type} (gc : σ → Except Err (Except Err Bytes))
    (NewReadOnly : Bytes → Except Err ReadOnlyCar)
    (decode : Cid → Bytes → Except Err Node) (notFound : Cid → Err)
    (ss : σ) : Except Err (Cid × DAGService) :=
  match gc ss with
  | Except.error err => Except.error err
  | Except.ok rc =>
    match rc with
    | Except.error err => Except.error err
    | Except.ok memcar =>
      match NewReadOnly memcar with
      | Except.error err => Except.error err
      | Except.ok cbs =>
        match cbs.Roots with
        | Except.error err => Except.error err
        | Except.ok roots =>
          if roots.length ≠ 1 then Except.error "wanted one root"
          else
            let bs := NewTieredBstore (Adapt cbs) NewMemory
            match roots with
            | r :: _ => Except.ok (r, NewDAGService decode notFound bs)
            | [] => Except.error "wanted one root"

/-! ## Link classification (`parseLinks`, `linkDesc`) -/

/-- The UnixFS node types (`unixfs.TRaw` ... `unixfs.THAMTShard`); any other value of the
protobuf enumeration is `Unrecognized`. -/
inductive UfsType
  | TRaw
  | TDirectory
  | TFile
  | TMetadata
  | TSymlink
  | THAMTShard
  | Unrecognized (n : Int)
deriving DecidableEq

/-- The library calls of the classifiers, over a reader type `ρ`: `unixfs.FSNodeFromBytes`
followed by `Type()`, `fmt.Sprint` of a UnixFS type, `io2.NewDagReader`, `bytes.NewReader`,
`mime.TypeByExtension`, `mimetype.DetectReader` followed by `String()`, and
`types.SizeStr(types.NewInt(n))`. -/
structure Lib (ρ : Type) where
  FSNodeFromBytes : Bytes → Except Err UfsType
  SprintType : UfsType → String
  NewDagReader : Node → DAGService → Except Err ρ
  NewReader : Bytes → ρ
  TypeByExtension : String → String
  DetectReader : ρ → Except Err String
  SizeStr : Nat → String

/-- Scan of `path.Ext` from the end of the path: `rev` is what is left to scan, reversed, and
`acc` the characters already passed. -/
def extAux : List Char → List Char → String
  | [], _ => ""
  | c :: rev, acc =>
    if c = '/' then ""
    else if c = '.' then String.mk ('.' :: acc)
    else extAux rev (c :: acc)

/-- The function `path.Ext` of the Go library: the suffix beginning at the final dot in the final
slash-separated element of the path, empty if there is no dot. -/
def Ext (path : String) : String := extAux path.data.reverse []

/-- The uses a classifier makes of the DAG service: a `dserv.Get`, or handing the service to
`io2.NewDagReader` for the node fetched for `c`. -/
inductive DagCall
  | Get (c : Cid)
  | NewDagReader (c : Cid)
deriving DecidableEq

/-- The type `dirEntry`. -/
structure dirEntry where
  Name : String
  Size : String
  Cid : Cid
  Desc : String
deriving DecidableEq

/-- The content-type steps of the file cases of `parseLinks` (lines 1107-1115) and `linkDesc`
(lines 1164-1172 and 1183-1191): the type of the extension of `name`, else the type sniffed from
`rrd`. -/
def fileCtype {ρ : Type} (lib : Lib ρ) (name : String) (rrd : ρ) : Except Err String :=
  let ctype := lib.TypeByExtension (Ext name)
  if ctype = "" then
    match lib.DetectReader rrd with
    | Except.error err => Except.error err
    | Except.ok mimeType => Except.ok mimeType
  else Except.ok ctype

/-- The body of the `if int64(i) < maxChecks` block of `parseLinks` (lines 1057-1121) for the
link `l`: the description written to `links[i].Desc`, or the error `parseLinks` returns, with the
uses made of the DAG service.  `node` is the node argument of `parseLinks`. -/
def checkLink {ρ : Type} (lib : Lib ρ) (node : Node) (dserv : DAGService) (l : Link) :
    Except Err String × List DagCall :=
  if l.Cid.codec = DagProtobuf then
    match dserv.Get l.Cid with
    | Except.error _ => (Except.ok "DAG-PB", [DagCall.Get l.Cid])
    | Except.ok fnode =>
      if fnode.isProtoNode = false then (Except.ok "?? (e1)", [DagCall.Get l.Cid])
      else
        match lib.FSNodeFromBytes fnode.Data with
        | Except.error err => (Except.error err, [DagCall.Get l.Cid])
        | Except.ok UfsType.TDirectory =>
          (Except.ok ("DIR (" ++ toString fnode.Links.length ++ " entries)"), [DagCall.Get l.Cid])
        | Except.ok UfsType.THAMTShard =>
          (Except.ok ("HAMT (" ++ toString fnode.Links.length ++ " links)"), [DagCall.Get l.Cid])
        | Except.ok UfsType.TSymlink => (Except.ok "LINK", [DagCall.Get l.Cid])
        | Except.ok UfsType.TFile =>
          match lib.NewDagReader fnode dserv with
          | Except.error err => (Except.error err, [DagCall.Get l.Cid, DagCall.NewDagReader l.Cid])
          | Except.ok rrd =>
            match fileCtype lib l.Name rrd with
            | Except.error err =>
              (Except.error err, [DagCall.Get l.Cid, DagCall.NewDagReader l.Cid])
            | Except.ok ctype =>
              (Except.ok ("FILE (" ++ ctype ++ ")"), [DagCall.Get l.Cid, DagCall.NewDagReader l.Cid])
        | Except.ok t => (Except.error ("unknown ufs type " ++ lib.SprintType t), [DagCall.Get l.Cid])
  else if l.Cid.codec = Raw then
    match fileCtype lib l.Name (lib.NewReader node.RawData) with
    | Except.error err => (Except.error err, [])
    | Except.ok ctype => (Except.ok ("FILE (" ++ ctype ++ ")"), [])
  else if l.Cid.codec = DagCBOR then (Except.ok "DAG-CBOR", [])
  else (Except.ok "", [])

/-- The loop of `parseLinks` (lines 1050-1122) from index `i` on, over the links left. -/
def parseLinksFrom {ρ : Type} (lib : Lib ρ) (node : Node) (dserv : DAGService) (maxChecks : Int) :
    Nat → List Link → Except Err (List dirEntry) × List DagCall
  | _, [] => (Except.ok [], [])
  | i, l :: ls =>
    let entry : dirEntry := ⟨l.Name, lib.SizeStr l.Size, l.Cid, ""⟩
    if (i : Int) < maxChecks then
      match checkLink lib node dserv l with
      | (Except.error err, tr) => (Except.error err, tr)
      | (Except.ok desc, tr) =>
        match parseLinksFrom lib node dserv maxChecks (i + 1) ls with
        | (Except.error err, tr2) => (Except.error err, tr ++ tr2)
        | (Except.ok links, tr2) => (Except.ok ({ entry with Desc := desc } :: links), tr ++ tr2)
    else
      match parseLinksFrom lib node dserv maxChecks (i + 1) ls with
      | (Except.error err, tr2) => (Except.error err, tr2)
      | (Except.ok links, tr2) => (Except.ok (entry :: links), tr2)

/-- The function `parseLinks` (lines 1047-1125): the entries or the error returned, and the uses
made of the DAG service. -/
def parseLinks {ρ : Type} (lib : Lib ρ) (ls : List Link) (node : Node) (dserv : DAGService)
    (maxChecks : Int) : Except Err (List dirEntry) × List DagCall :=
  parseLinksFrom lib node dserv maxChecks 0 ls

/-- Lowercase hexadecimal of a number, as printed by the verb `%x`. -/
def hex (n : Nat) : String := String.mk (Nat.toDigits 16 n)

/-- The triple returned by `linkDesc`. -/
structure LinkDesc where
  desc : String
  full : Bool
  err : Option Err
deriving DecidableEq

/-- The function `linkDesc` (lines 1127-1199): the returned triple and the uses made of the DAG
service. -/
def linkDesc {ρ : Type} (lib : Lib ρ) (c : Cid) (name : String) (dserv : DAGService) :
    LinkDesc × List DagCall :=
  if c.codec = DagProtobuf then
    match dserv.Get c with
    | Except.error _ => (⟨"DAG-PB", false, none⟩, [DagCall.Get c])
    | Except.ok fnode =>
      if fnode.isProtoNode = false then (⟨"?? (e1)", false, none⟩, [DagCall.Get c])
      else
        match lib.FSNodeFromBytes fnode.Data with
        | Except.error err => (⟨"nil", false, some err⟩, [DagCall.Get c])
        | Except.ok UfsType.TDirectory =>
          (⟨"DIR (" ++ toString fnode.Links.length ++ " entries)", true, none⟩, [DagCall.Get c])
        | Except.ok UfsType.THAMTShard =>
          (⟨"HAMT (" ++ toString fnode.Links.length ++ " links)", true, none⟩, [DagCall.Get c])
        | Except.ok UfsType.TSymlink => (⟨"LINK", true, none⟩, [DagCall.Get c])
        | Except.ok UfsType.TFile =>
          match lib.NewDagReader fnode dserv with
          | Except.error err => (⟨"", false, some err⟩, [DagCall.Get c, DagCall.NewDagReader c])
          | Except.ok rrd =>
            match fileCtype lib name rrd with
            | Except.error err => (⟨"", false, some err⟩, [DagCall.Get c, DagCall.NewDagReader c])
            | Except.ok ctype =>
              (⟨"FILE (pb," ++ ctype ++ ")", true, none⟩, [DagCall.Get c, DagCall.NewDagReader c])
        | Except.ok t =>
          (⟨"", false, some ("unknown ufs type " ++ lib.SprintType t)⟩, [DagCall.Get c])
  else if c.codec = Raw then
    match dserv.Get c with
    | Except.error _ => (⟨"RAW", false, none⟩, [DagCall.Get c])
    | Except.ok fnode =>
      match fileCtype lib name (lib.NewReader fnode.RawData) with
      | Except.error err => (⟨"", false, some err⟩, [DagCall.Get c])
      | Except.ok ctype => (⟨"FILE (raw," ++ ctype ++ ")", true, none⟩, [DagCall.Get c])
  else if c.codec = DagCBOR then (⟨"DAG-CBOR", true, none⟩, [])
  else (⟨"UNK:0x" ++ hex c.codec, true, none⟩, [])

/-- The CIDs fetched with `dserv.Get` in a trace of uses of the DAG service. -/
def fetched : List DagCall → List Cid
  | [] => []
  | DagCall.Get c :: tr => c :: fetched tr
  | DagCall.NewDagReader _ :: tr => fetched tr

/-! ## Sample environments -/

/-- A sample of the library.  A reader is the byte string it yields, or the error of its reads.
A UnixFS descriptor `[8, t]` (field 1, the type, as a varint) decodes to type `t`, anything else
fails like a truncated message.  A DAG reader over a file node yields the bytes of the first
chunk linked from the node, read from the DAG service, or the error of that read; with no chunk
link it yields no bytes.  The extension table holds the built-in entries for `.html` and `.png`;
sniffing returns the error of the reader, knows the PNG signature and answers
`application/octet-stream` otherwise. -/
def sampleLib : Lib (Except Err Bytes) where
  FSNodeFromBytes := fun b =>
    match b with
    | [8, 0] => Except.ok UfsType.TRaw
    | [8, 1] => Except.ok UfsType.TDirectory
    | [8, 2] => Except.ok UfsType.TFile
    | [8, 3] => Except.ok UfsType.TMetadata
    | [8, 4] => Except.ok UfsType.TSymlink
    | [8, 5] => Except.ok UfsType.THAMTShard
    | _ => Except.error "unexpected EOF"
  SprintType := fun t =>
    match t with
    | UfsType.TRaw => "Raw"
    | UfsType.TDirectory => "Directory"
    | UfsType.TFile => "File"
    | UfsType.TMetadata => "Metadata"
    | UfsType.TSymlink => "Symlink"
    | UfsType.THAMTShard => "HAMTShard"
    | UfsType.Unrecognized n => toString n
  NewDagReader := fun n dserv =>
    match n.Links with
    | [] => Except.ok (Except.ok [])
    | l :: _ =>
      match dserv.Get l.Cid with
      | Except.ok chunk => Except.ok (Except.ok chunk.RawData)
      | Except.error e => Except.ok (Except.error e)
  NewReader := fun b => Except.ok b
  TypeByExtension := fun e =>
    if e = ".html" then "text/html; charset=utf-8"
    else if e = ".png" then "image/png"
    else ""
  DetectReader := fun r =>
    match r with
    | Except.error e => Except.error e
    | Except.ok b =>
      if b.take 8 = [0x89, 0x50, 0x4e, 0x47, 0x0d, 0x0a, 0x1a, 0x0a] then Except.ok "image/png"
      else Except.ok "application/octet-stream"
  SizeStr := fun n => toString n ++ " B"

/-- A sample full node: the wallet and the offer query answer, the offer asks `price`. -/
def sampleNode (price : Int) : FullNode where
  WalletDefaultAddress := Except.ok "f1payer"
  ClientMinerQueryOffer := fun m file piece => Except.ok ⟨"", file, some piece, price, m⟩
  ClientGetRetrievalUpdates := Except.ok ()
  ClientRetrieve := fun _ => Except.ok ⟨7⟩
  ClientCancelRetrievalDeal := fun _ => Except.ok ()
  FIL := fun n => toString n ++ " aFIL"

/-- A sample CID with codec `codec`. -/
def sampleCid (codec : Nat) (tag : Nat) : Cid := ⟨codec, [18, 32, tag]⟩

/-- A sample event for deal `id` with status `st`. -/
def sampleEvt (id : Nat) (st : DealStatus) (msg : String) : RetrievalInfo :=
  ⟨id, st, msg, 0, 0, none⟩

/-- A sample DAG service answering with the decoded nodes of the association list `nodes`; it
stands for a service whose blocks all decoded. -/
def sampleDserv (nodes : List (Cid × Node)) : DAGService :=
  ⟨fun c => match nodes.lookup c with
    | some n => Except.ok n
    | none => Except.error "ipld: could not find node"⟩

/-- A sample read-only archive with the declared roots `roots`, holding one block under the
sample raw CID 1. -/
def sampleCar (roots : List Cid) : ReadOnlyCar :=
  ⟨Except.ok roots, fun c => if c = sampleCid Raw 1 then some [1, 2, 3] else none⟩

/-- A sample node decoder: every block decodes to a node with these raw bytes and no links. -/
def sampleDecode : Cid → Bytes → Except Err Node := fun _ b => Except.ok ⟨false, [], b, []⟩

/-- A sample not-found error. -/
def sampleNotFound : Cid → Err := fun _ => "ipld: could not find node"

/-- A sample `getCar` closure: the stream copies to three bytes. -/
def sampleGc : Unit → Except Err (Except Err Bytes) := fun _ => Except.ok (Except.ok [58, 162, 101])

/-- A sample list of `n` links to raw blocks, named `f0`, `f1`, ... -/
def sampleLinks (n : Nat) : List Link :=
  (List.range n).map (fun i => ⟨"f" ++ toString i, i, sampleCid Raw i⟩)

/-- A sample file node with one chunk link, to the sample raw CID 9. -/
def sampleFile : Node := ⟨true, [8, 2], [18, 4, 10, 2, 8, 2], [⟨"", 8, sampleCid Raw 9⟩]⟩

/-- A sample raw node holding the PNG signature. -/
def samplePng : Node := ⟨false, [], [0x89, 0x50, 0x4e, 0x47, 0x0d, 0x0a, 0x1a, 0x0a], []⟩

/-- A sample directory node. -/
def sampleDir : Node := ⟨true, [8, 1], [10, 2, 8, 1], []⟩

/-! ## Selector specs built by the handlers -/

/-- The package variable `maxDirTypeChecks` (line 69); it is assigned nowhere else. -/
def maxDirTypeChecks : Int := 16

/-- The package variable `typeCheckDepth` (line 69); it is assigned nowhere else. -/
def typeCheckDepth : Int := 15

/-- A `selector.RecursionLimit`: `RecursionLimitDepth(n)` or `RecursionLimitNone()`. -/
inductive RecursionLimit
  | Depth (n : Int)
  | None
deriving DecidableEq

/-- The selector specs that the builder calls of the handlers construct (`ssb.Matcher`,
`ssb.ExploreAll`, `ssb.ExploreFields` with its `Insert` calls, `ssb.ExploreIndex`,
`ssb.ExploreRange`, `ssb.ExploreRecursive`, `ssb.ExploreRecursiveEdge`, `ssb.ExploreUnion`). -/
inductive SelectorSpec
  | Matcher
  | ExploreAll (next : SelectorSpec)
  | ExploreFields (fields : List (String × SelectorSpec))
  | ExploreIndex (index : Int) (next : SelectorSpec)
  | ExploreRange (start stop : Int) (next : SelectorSpec)
  | ExploreRecursive (limit : RecursionLimit) (sequence : SelectorSpec)
  | ExploreRecursiveEdge
  | ExploreUnion (members : List SelectorSpec)

/-- The spec shared by the type checks: explore recursively, to depth `typeCheckDepth`, the
node itself and the hash of its first link (lines 349-355 and 1205-1211, and the inner part of
lines 531-537). -/
def firstLinkChain : SelectorSpec :=
  SelectorSpec.ExploreRecursive (RecursionLimit.Depth typeCheckDepth)
    (SelectorSpec.ExploreUnion [SelectorSpec.Matcher,
      SelectorSpec.ExploreFields [("Links", SelectorSpec.ExploreIndex 0
        (SelectorSpec.ExploreFields [("Hash", SelectorSpec.ExploreRecursiveEdge)]))]])

/-- The spec the `/deal/{id}` handler passes to `get` (lines 349-355). -/
def dealSel : SelectorSpec := firstLinkChain

/-- The spec `sel` the `/view` handler passes to `get` for the root (lines 518-542), by request
method. -/
def viewSel (method : String) : SelectorSpec :=
  if method ≠ "HEAD" then
    SelectorSpec.ExploreUnion [SelectorSpec.Matcher,
      SelectorSpec.ExploreFields [("Links", SelectorSpec.ExploreRange 0 maxDirTypeChecks
        (SelectorSpec.ExploreFields [("Hash", firstLinkChain)]))]]
  else SelectorSpec.Matcher

/-- The spec the `/view` handler passes to `get` to read a file when the method is not HEAD
(line 671). -/
def viewFileSel : SelectorSpec :=
  SelectorSpec.ExploreRecursive (RecursionLimit.Depth typeCheckDepth)
    (SelectorSpec.ExploreAll
      (SelectorSpec.ExploreUnion [SelectorSpec.Matcher, SelectorSpec.ExploreRecursiveEdge]))

/-- The spec `getHeadReader` passes to `get` (lines 1205-1211): `pss` applied to the first-link
chain. -/
def headReaderSel (pss : SelectorSpec → SelectorSpec) : SelectorSpec := pss firstLinkChain

/-- The spec the `/view` handler makes `getHeadReader` build (lines 662-664): its `pss` returns
the spec unchanged. -/
def viewHeadSel : SelectorSpec := headReaderSel (fun spec => spec)

/-- The spec the `/car` handler passes to `getCar` (lines 904-907). -/
def carSel : SelectorSpec :=
  SelectorSpec.ExploreRecursive RecursionLimit.None
    (SelectorSpec.ExploreUnion [SelectorSpec.Matcher,
      SelectorSpec.ExploreAll SelectorSpec.ExploreRecursiveEdge])

mutual
/-- The limits of the `ExploreRecursive` nodes of a spec, outermost first. -/
def recursionLimits : SelectorSpec → List RecursionLimit
  | SelectorSpec.Matcher => []
  | SelectorSpec.ExploreAll next => recursionLimits next
  | SelectorSpec.ExploreFields fields => recursionLimitsFields fields
  | SelectorSpec.ExploreIndex _ next => recursionLimits next
  | SelectorSpec.ExploreRange _ _ next => recursionLimits next
  | SelectorSpec.ExploreRecursive limit sequence => limit :: recursionLimits sequence
  | SelectorSpec.ExploreRecursiveEdge => []
  | SelectorSpec.ExploreUnion members => recursionLimitsList members
/-- The limits of the `ExploreRecursive` nodes of the inserted fields. -/
def recursionLimitsFields : List (String × SelectorSpec) → List RecursionLimit
  | [] => []
  | (_, spec) :: fields => recursionLimits spec ++ recursionLimitsFields fields
/-- The limits of the `ExploreRecursive` nodes of the members of a union. -/
def recursionLimitsList : List SelectorSpec → List RecursionLimit
  | [] => []
  | spec :: members => recursionLimits spec ++ recursionLimitsList members
end

mutual
/-- The bounds of the `ExploreRange` nodes of a spec together with the field they are inserted
under (empty when not directly under a field), outermost first. -/
def exploreRanges : String → SelectorSpec → List (String × Int × Int)
  | _, SelectorSpec.Matcher => []
  | _, SelectorSpec.ExploreAll next => exploreRanges "" next
  | _, SelectorSpec.ExploreFields fields => exploreRangesFields fields
  | _, SelectorSpec.ExploreIndex _ next => exploreRanges "" next
  | field, SelectorSpec.ExploreRange start stop next =>
    (field, start, stop) :: exploreRanges "" next
  | _, SelectorSpec.ExploreRecursive _ sequence => exploreRanges "" sequence
  | _, SelectorSpec.ExploreRecursiveEdge => []
  | _, SelectorSpec.ExploreUnion members => exploreRangesList members
/-- The `ExploreRange` nodes of the inserted fields. -/
def exploreRangesFields : List (String × SelectorSpec) → List (String × Int × Int)
  | [] => []
  | (name, spec) :: fields => exploreRanges name spec ++ exploreRangesFields fields
/-- The `ExploreRange` nodes of the members of a union. -/
def exploreRangesList : List SelectorSpec → List (String × Int × Int)
  | [] => []
  | spec :: members => exploreRanges "" spec ++ exploreRangesList members
end

/-! ## Serving a file (`/view` handler, lines 849-877) -/

/-- What a handler does to the response writer `w` and to the reader `rd`, in order:
`w.Header().Set`, `http.Error`, `w.WriteHeader`, the execution of a template on `w`,
`http.ServeContent`, `mimetype.DetectReader(rd)` and `rd.Seek`. -/
inductive HandlerOp
  | HeaderSet (key value : String)
  | Error (error : String) (code : Nat)
  | WriteHeader (code : Nat)
  | Execute (template : String) (content : String)
  | ServeContent (name : String)
  | DetectReader
  | Seek (offset : Int) (whence : Nat)
deriving DecidableEq

/-- The status `http.StatusInternalServerError`. -/
def StatusInternalServerError : Nat := 500

/-- The status `http.StatusOK`. -/
def StatusOK : Nat := 200

/-- The constant `io.SeekStart`. -/
def SeekStart : Nat := 0

/-- The function `strings.HasPrefix`, on the characters of the strings. -/
def stringsHasPrefix (s pre : String) : Bool := pre.data.isPrefixOf s.data

/-- The content type written to the header (lines 867-869): `text/html` when the determined
type begins with `text/html;`, the determined type otherwise. -/
def headerCtype (ctype : String) : String :=
  if stringsHasPrefix ctype "text/html;" then "text/html" else ctype

/-- The `Content-Disposition` header of a served file (lines 872-874), written when the form
value `filename` is not empty. -/
def dispositionHeader (filename : String) : List HandlerOp :=
  if filename ≠ "" then
    [HandlerOp.HeaderSet "Content-Disposition" ("inline; filename=\"" ++ filename ++ "\"")]
  else []

/-- The end of the `/view` handler for a file (lines 849-877): `filename` is the form value
`filename`, `rd` the reader of the file, `SeekTo` the answer of `rd.Seek(0, io.SeekStart)`. -/
def serveFile {ρ : Type} (lib : Lib ρ) (SeekTo : ρ → Except Err Unit) (filename : String)
    (rd : ρ) : List HandlerOp :=
  let ctype := lib.TypeByExtension (Ext filename)
  if ctype = "" then
    match lib.DetectReader rd with
    | Except.error err =>
      [HandlerOp.DetectReader,
        HandlerOp.Error ("cannot detect content-type: " ++ err) StatusInternalServerError]
    | Except.ok mimeType =>
      match SeekTo rd with
      | Except.error _ =>
        [HandlerOp.DetectReader, HandlerOp.Seek 0 SeekStart,
          HandlerOp.Error "seeker can't seek" StatusInternalServerError]
      | Except.ok _ =>
        [HandlerOp.DetectReader, HandlerOp.Seek 0 SeekStart,
          HandlerOp.HeaderSet "Content-Type" (headerCtype mimeType)]
          ++ dispositionHeader filename ++ [HandlerOp.ServeContent filename]
  else
    [HandlerOp.HeaderSet "Content-Type" (headerCtype ctype)]
      ++ dispositionHeader filename ++ [HandlerOp.ServeContent filename]

/-! ## Path selectors and the archive stream (`pathToSel`, `getCar`) -/

/-- The library calls of `pathToSel`: `textselector.SelectorSpecFromPath`, and
`dagjson.Encode` of the node of the spec followed by `String()` of the buffer. -/
structure SelLib where
  SelectorSpecFromPath : String → Bool → SelectorSpec → Except Err SelectorSpec
  Encode : SelectorSpec → Except Err String

/-- The function `pathToSel` (lines 1290-1304): the returned selector and error.  The line
printed to standard output is not part of the state. -/
def pathToSel (sl : SelLib) (psel : String) (matchTraversal : Bool) (sub : SelectorSpec) :
    Selector × Option Err :=
  match sl.SelectorSpecFromPath psel matchTraversal sub with
  | Except.error err => ("", some ("failed to parse path-selector: " ++ err))
  | Except.ok rs =>
    match sl.Encode rs with
    | Except.error err => ("", some err)
    | Except.ok b => (b, none)

/-- What a call of the closure of `getCar` produced: the returned pair (`none` while `retrieve`
is still blocked in its event loop), the calls `retrieve` made on the full node, and the export
reference handed to `lcli.ClientExportStream` if that call was made. -/
structure GetCarRun where
  result : Option (Except Err (Except Err Bytes))
  calls : List ApiCall
  exported : Option ExportRef

/-- The closure returned by `getCar` (lines 1225-1249), applied to the selector spec `ss`.
`path` is the route variable `path`; `ClientExportStream` is the call of the cli package, whose
stream is given by what a copy reads from it; `sched` is the sequence of `select` outcomes of
`retrieve`. -/
def getCar (sl : SelLib) (fapi : FullNode)
    (ClientExportStream : ExportRef → Except Err (Except Err Bytes))
    (path : String) (ma : Address) (pcid dcid : Cid) (sched : List SelectCase)
    (ss : SelectorSpec) : GetCarRun :=
  match pathToSel sl path false ss with
  | (_, some err) => ⟨some (Except.error err), [], none⟩
  | (sel, none) =>
    let run := retrieve fapi ma pcid dcid sel sched
    match run.result with
    | none => ⟨none, run.calls, none⟩
    | some (Except.error err) => ⟨some (Except.error ("retrieve: " ++ err)), run.calls, none⟩
    | some (Except.ok eref) =>
      let eref2 : ExportRef := { eref with DAGs := eref.DAGs ++ [⟨some sel, true⟩] }
      match ClientExportStream eref2 with
      | Except.error err => ⟨some (Except.error err), run.calls, some eref2⟩
      | Except.ok rc => ⟨some (Except.ok rc), run.calls, some eref2⟩

/-- Split of a path at its slashes: `cur` is the segment being read, reversed. -/
def splitSlash : List Char → List Char → List String
  | [], cur => [String.mk cur.reverse]
  | c :: cs, cur =>
    if c = '/' then String.mk cur.reverse :: splitSlash cs [] else splitSlash cs (c :: cur)

/-- The backwards walk of the sample path parser over the segments, given last first with their
positions: an empty segment that is neither the first nor the last of the `n` segments is
refused, every other segment wraps the spec built so far in an `ExploreFields`. -/
def wrapSegments (n : Nat) : List (Nat × String) → SelectorSpec → Except Err SelectorSpec
  | [], ss => Except.ok ss
  | (i, seg) :: rest, ss =>
    if seg = "" then
      if i = 0 ∨ i + 1 = n then wrapSegments n rest ss
      else Except.error ("invalid empty segment at position " ++ toString i)
    else wrapSegments n rest (SelectorSpec.ExploreFields [(seg, ss)])

/-- A sample of the selector library: the parser splits the path at slashes and walks the
segments backwards, refusing an inner empty segment as the text-selector library does; the
encoder answers a fixed text. -/
def sampleSelLib : SelLib where
  SelectorSpecFromPath := fun path _ sub =>
    wrapSegments (splitSlash path.data []).length (splitSlash path.data []).enum.reverse sub
  Encode := fun _ => Except.ok "selector"

/-! ## Type check of the root in the `/deal/{id}` handler (lines 346-454) -/

/-- The values the type check leaves for the page: `typ`, `sz`, `linkc` and `dents`. -/
structure DealRoot where
  typ : String
  sz : String
  linkc : Nat
  dents : List dirEntry
deriving DecidableEq

/-- The further library calls of the type check: `FileSize()` of the decoded UnixFS
descriptor, `io2.NewDirectoryFromNode`, `Links` of the directory, and `cbor.DecodeInto`. -/
structure DealLib where
  FileSize : Bytes → Nat
  NewDirectoryFromNode : DAGService → Node → Except Err Unit
  Links : DAGService → Node → Except Err (List Link)
  DecodeInto : Bytes → Except Err Unit

/-- The type check of the root in the `/deal/{id}` handler (lines 346-454).  `g` is the closure
returned by `get`, `expand` the form value `expand`.  An error is the message the handler passes
to `http.Error` with status 500 before it returns. -/
def dealRootCheck {ρ : Type} (lib : Lib ρ) (dl : DealLib)
    (g : SelectorSpec → Except Err (Cid × DAGService)) (expand : String) : Except Err DealRoot :=
  match g dealSel with
  | Except.error err => Except.error err
  | Except.ok (root, dserv) =>
    match dserv.Get root with
    | Except.error err => Except.error err
    | Except.ok node =>
      if root.codec = DagProtobuf then
        if node.isProtoNode = false then Except.error "not a dir"
        else
          match lib.FSNodeFromBytes node.Data with
          | Except.error err => Except.error err
          | Except.ok UfsType.TDirectory =>
            match dl.NewDirectoryFromNode dserv node with
            | Except.error err => Except.error err
            | Except.ok _ =>
              match dl.Links dserv node with
              | Except.error err => Except.error err
              | Except.ok ls =>
                if expand = "1" then
                  match (parseLinks lib ls node dserv 0).1 with
                  | Except.error err => Except.error err
                  | Except.ok dents =>
                    Except.ok ⟨"DIR", lib.SizeStr (dl.FileSize node.Data), ls.length, dents⟩
                else Except.ok ⟨"DIR", lib.SizeStr (dl.FileSize node.Data), ls.length, []⟩
          | Except.ok UfsType.TFile =>
            match lib.NewDagReader node dserv with
            | Except.error err => Except.error err
            | Except.ok rd =>
              match lib.DetectReader rd with
              | Except.error err => Except.error ("cannot detect content-type: " ++ err)
              | Except.ok mimeType =>
                Except.ok ⟨"FILE(" ++ mimeType ++ ")", lib.SizeStr (dl.FileSize node.Data), 0, []⟩
          | Except.ok t => Except.error ("unknown ufs type " ++ lib.SprintType t)
      else if root.codec = Raw then
        match lib.DetectReader (lib.NewReader node.RawData) with
        | Except.error err => Except.error ("cannot detect content-type: " ++ err)
        | Except.ok mimeType =>
          Except.ok ⟨"FILE(" ++ mimeType ++ ")", lib.SizeStr node.RawData.length, 0, []⟩
      else if root.codec = DagCBOR then
        match dl.DecodeInto node.RawData with
        | Except.error err => Except.error err
        | Except.ok _ => Except.ok ⟨"DAG-CBOR", lib.SizeStr node.RawData.length, 0, []⟩
      else Except.error ("unknown codec " ++ toString root.codec)

/-- A sample of the further library calls: the file size is the length of the descriptor, every
directory opens with the links of its node, and the CBOR decoder refuses the empty input and a
leading break byte `0xff`. -/
def sampleDealLib : DealLib where
  FileSize := fun b => b.length
  NewDirectoryFromNode := fun _ _ => Except.ok ()
  Links := fun _ n => Except.ok n.Links
  DecodeInto := fun b =>
    match b with
    | [] => Except.error "EOF"
    | x :: _ => if x = 0xff then Except.error "cbor: unexpected break code" else Except.ok ()

/-- A sample of the block decoder of the Merkle-DAG service: a dag-cbor block decodes to a node
only when the sample CBOR decoder accepts its bytes, and fails with the error of that decoder
otherwise; a block of another codec decodes to a node with these raw bytes and no links. -/
def sampleCodecDecode : Cid → Bytes → Except Err Node := fun c b =>
  if c.codec = DagCBOR then
    match sampleDealLib.DecodeInto b with
    | Except.error e => Except.error e
    | Except.ok _ => Except.ok ⟨false, [], b, []⟩
  else Except.ok ⟨false, [], b, []⟩

/-- A sample archive with the one root `sampleCid DagCBOR 5`, whose block is the lone break byte
`0xff`, which is not CBOR. -/
def sampleBadCborCar : ReadOnlyCar :=
  ⟨Except.ok [sampleCid DagCBOR 5],
    fun c => if c = sampleCid DagCBOR 5 then some [0xff] else none⟩

/-- The DAG service `get` builds over the sample archive with the undecodable root. -/
def sampleBadCborDserv : DAGService :=
  NewDAGService sampleCodecDecode sampleNotFound (NewTieredBstore (Adapt sampleBadCborCar) NewMemory)

/-- The closure `g` of the `/deal` handler over the sample archive with the undecodable root:
`get` applied to a stream and to the archive it opens as. -/
def sampleBadCborGet : SelectorSpec → Except Err (Cid × DAGService) :=
  get (fun _ => Except.ok (Except.ok [58, 162, 101])) (fun _ => Except.ok sampleBadCborCar)
    sampleCodecDecode sampleNotFound

/-! ## Structural dump of a dag-cbor root (`/view` handler, lines 692-843) -/

/-- An `ipld.Link`: a `cidlink.Link` with its CID and the text of its `String()`, or a link of
another type with its rendering under the verb `%#v`. -/
inductive IpldLink
  | cid (c : Cid) (text : String)
  | other (goSyntax : String)
deriving DecidableEq

/-- An `ipld.Node` by its kind.  A map is given by the entries its iterator yields, keys being
strings, and a list by the items its iterator yields, each with the error on which the iterator
stops if it does; a float is given by its text under the verb `%f`; `Unknown` is a kind outside
the enumeration.  A scalar node is given by the value its accessor (`AsBool`, `AsInt`,
`AsString`, `AsBytes`, `AsLink`) answers: a node whose accessor fails, such as an integer
outside the 64-bit range, on which `must` panics, is not a value of this type. -/
inductive IpldNode
  | Invalid
  | Map (entries : List (String × IpldNode)) (iterErr : Option Err)
  | List (items : List IpldNode) (iterErr : Option Err)
  | Null
  | Bool (b : Bool)
  | Int (i : Int)
  | Float (text : String)
  | String (s : String)
  | Bytes (b : Bytes)
  | Link (l : IpldLink)
  | Unknown

/-- The function `path.Base` of the Go library. -/
def Base (path : String) : String :=
  if path = "" then "."
  else
    let stripped := (path.data.reverse.dropWhile (fun c => c = '/')).reverse
    let last := (stripped.reverse.takeWhile (fun c => c ≠ '/')).reverse
    if last = [] then "/" else String.mk last

/-- Replacement of the first occurrence of the non-empty `old` by `new`, on characters. -/
def replaceFirst (old new : List Char) : List Char → List Char
  | [] => []
  | c :: cs =>
    if old.isPrefixOf (c :: cs) then new ++ (c :: cs).drop old.length
    else c :: replaceFirst old new cs

/-- The call `strings.Replace(s, old, new, 1)` for a non-empty `old`. -/
def Replace1 (s old new : String) : String := String.mk (replaceFirst old.data new.data s.data)

/-- The function `template.HTMLEscapeString`. -/
def HTMLEscapeString (s : String) : String :=
  String.join (s.data.map (fun c =>
    if c = '&' then "&amp;"
    else if c = '\x27' then "&#39;"
    else if c = '<' then "&lt;"
    else if c = '>' then "&gt;"
    else if c = '"' then "&#34;"
    else if c = '\x00' then "\uFFFD"
    else String.singleton c))

/-- Two lowercase hexadecimal digits of a byte, as the verb `%x` prints a byte slice. -/
def hexBytes (b : Bytes) : String :=
  String.join (b.map (fun x => String.mk [Nat.digitChar (x / 16), Nat.digitChar (x % 16)]))

mutual
/-- The closure `dumpNode` of the `/view` handler (lines 739-820), with the DAG service of the
request, on nodes whose accessors answer (the calls wrapped in `must` do not panic). -/
def dumpNode {ρ : Type} (lib : Lib ρ) (dserv : DAGService) : IpldNode → String → Except Err String
  | IpldNode.Invalid, _ => Except.ok "<span class=\"node\">INVALID</span>"
  | IpldNode.Map entries iterErr, recPath =>
    match dumpMap lib dserv entries iterErr recPath with
    | Except.error err => Except.error err
    | Except.ok inner =>
      Except.ok ("<div class=\"node\"><div><span>MAP</span></div><div><table>" ++ inner
        ++ "</table></div></div>")
  | IpldNode.List items iterErr, recPath =>
    match dumpList lib dserv items iterErr 0 recPath with
    | Except.error err => Except.error err
    | Except.ok inner =>
      Except.ok ("<div class=\"node\"><div><span>LIST</span></div><div><table>" ++ inner
        ++ "</table></div></div>")
  | IpldNode.Null, _ => Except.ok "<span class=\"node\">NULL</span>"
  | IpldNode.Bool b, _ => Except.ok ("<span class=\"node\">" ++ toString b ++ "</span>")
  | IpldNode.Int i, _ => Except.ok ("<span class=\"node\">" ++ toString i ++ "</span>")
  | IpldNode.Float text, _ => Except.ok ("<span class=\"node\">" ++ text ++ "</span>")
  | IpldNode.String str, _ =>
    Except.ok ("<span class=\"node\">\"" ++ HTMLEscapeString str ++ "\"</span>")
  | IpldNode.Bytes b, _ => Except.ok ("<span class=\"node\">" ++ hexBytes b ++ "</span>")
  | IpldNode.Link (IpldLink.other goSyntax), _ =>
    Except.error ("unexpected link type " ++ goSyntax)
  | IpldNode.Link (IpldLink.cid c text), recPath =>
    let r := (linkDesc lib c (Base recPath) dserv).1
    match r.err with
    | some err => Except.error ("link desc: " ++ err)
    | none =>
      let ld :=
        if r.full = false then
          r.desc ++ " <a href=\"javascript:void(0)\" onclick=\"checkDesc(this, \x27" ++ recPath
            ++ "?filename=" ++ Base recPath ++ "\x27)\">[?]</a>"
        else r.desc
      let carpath := Replace1 recPath "/view" "/car"
      Except.ok ("<span class=\"node\"><a href=\"" ++ recPath ++ "\">" ++ text ++ "</a> <a href=\""
        ++ carpath ++ "\">[car]</a> <span>(" ++ ld ++ ")</span></span>")
  | IpldNode.Unknown, _ => Except.ok "<span>UNKNOWN</span>"
/-- The loop of `dumpNode` over a map iterator (lines 747-763): the rows accumulated. -/
def dumpMap {ρ : Type} (lib : Lib ρ) (dserv : DAGService) :
    List (String × IpldNode) → Option Err → String → Except Err String
  | [], none, _ => Except.ok ""
  | [], some err, _ => Except.error err
  | (k, v) :: rest, iterErr, recPath =>
    let ks := "<span class=\"node\">\"" ++ HTMLEscapeString k ++ "\"</span>"
    match dumpNode lib dserv v (recPath ++ k ++ "/") with
    | Except.error err => Except.error err
    | Except.ok vs =>
      match dumpMap lib dserv rest iterErr recPath with
      | Except.error err => Except.error err
      | Except.ok inner => Except.ok ("<tr><td>" ++ ks ++ "</td><td>" ++ vs ++ "</td></tr>" ++ inner)
/-- The loop of `dumpNode` over a list iterator (lines 770-782), from index `k` on. -/
def dumpList {ρ : Type} (lib : Lib ρ) (dserv : DAGService) :
    List IpldNode → Option Err → Nat → String → Except Err String
  | [], none, _, _ => Except.ok ""
  | [], some err, _, _ => Except.error err
  | v :: rest, iterErr, k, recPath =>
    match dumpNode lib dserv v (recPath ++ toString k ++ "/") with
    | Except.error err => Except.error err
    | Except.ok vs =>
      match dumpList lib dserv rest iterErr (k + 1) recPath with
      | Except.error err => Except.error err
      | Except.ok inner =>
        Except.ok ("<tr><td class=\x27listkey\x27>" ++ toString k
          ++ "</td><td class=\x27listval\x27>" ++ vs ++ "</td></tr>" ++ inner)
end

/-- The library calls of the dag-cbor case of the `/view` handler: the node prototype chooser,
`linkSystem.Load` of the root node, and the parsing of the page template. -/
structure ViewLib where
  Choose : Except Err Unit
  Load : Node → Except Err IpldNode
  ParseFS : String → Except Err Unit

/-- The dag-cbor case of the `/view` handler (lines 692-843): what the handler does to the
response writer.  `size` is the value of `node.Size()`, `urlPath` the path of the request URL. -/
def viewCbor {ρ : Type} (lib : Lib ρ) (vl : ViewLib) (node : Node) (size : Nat)
    (dserv : DAGService) (urlPath : String) : List HandlerOp :=
  let hdr := [HandlerOp.HeaderSet "X-HumanSize" (lib.SizeStr size)]
  match vl.Choose with
  | Except.error err => hdr ++ [HandlerOp.Error err StatusInternalServerError]
  | Except.ok _ =>
    match vl.Load node with
    | Except.error err => hdr ++ [HandlerOp.Error err StatusInternalServerError]
    | Except.ok startNode =>
      match dumpNode lib dserv startNode urlPath with
      | Except.error _ => hdr
      | Except.ok res =>
        match vl.ParseFS "dexpl/ipld.gohtml" with
        | Except.error err => hdr ++ [HandlerOp.Error err StatusInternalServerError]
        | Except.ok _ =>
          hdr ++ [HandlerOp.HeaderSet "Content-Type" "text/html", HandlerOp.WriteHeader StatusOK,
            HandlerOp.Execute "ipld.gohtml" res]

/-- A sample dag-pb node whose UnixFS descriptor is truncated. -/
def sampleBadPb : Node := ⟨true, [8], [10, 1, 8], []⟩

/-- A sample of the library calls of the dag-cbor case: the root decodes to a map with the one
key `child`, a link to the sample dag-pb CID 2. -/
def sampleViewLib : ViewLib where
  Choose := Except.ok ()
  Load := fun _ =>
    Except.ok (IpldNode.Map [("child", IpldNode.Link (IpldLink.cid (sampleCid DagProtobuf 2) "bafy2"))]
      none)
  ParseFS := fun _ => Except.ok ()

/-- A sample dag-cbor root: the map with the one key `child`, a link to the sample dag-pb CID 2
(in the short CID form of the samples). -/
def sampleCborRoot : Node :=
  ⟨false, [], [0xa1, 0x65, 0x63, 0x68, 0x69, 0x6c, 0x64, 0xd8, 0x2a, 0x46, 0x00, 0x01, 0x70, 18, 32,
    2], []⟩

/-! ## The `/ping/miner/{id}` handler (lines 164-222) -/

/-- The message of the run-time panic raised by a method call or a field read through a nil
value. -/
def nilDereference : String := "runtime error: invalid memory address or nil pointer dereference"

/-- The fields of `api.MinerInfo` read by the ping handler: the peer ID, a pointer that may be
nil, and the multiaddresses as bytes. -/
structure PingMinerInfo where
  PeerId : Option String
  Multiaddrs : List Bytes
deriving DecidableEq

/-- A `peer.AddrInfo`, the multiaddresses by their text. -/
structure AddrInfo where
  ID : String
  Addrs : List String
deriving DecidableEq

/-- The answers to the calls of the ping handler: `address.NewFromString`,
`api.StateMinerInfo`, `multiaddr.NewMultiaddrBytes`, `api.NetConnect`, and `api.NetPing` with
the duration rounded to the millisecond as it is printed. -/
structure PingApi where
  NewFromString : String → Except Err Address
  StateMinerInfo : Address → Except Err PingMinerInfo
  NewMultiaddrBytes : Bytes → Except Err String
  NetConnect : AddrInfo → Except Err Unit
  NetPing : String → Except Err String

/-- What one request of the ping handler did: the operations on the response writer, the body
written with `w.Write`, and the panic message if the handler panicked. -/
structure PingRun where
  ops : List HandlerOp
  body : Option String
  panic : Option String
deriving DecidableEq

/-- The loop over `mi.Multiaddrs` (lines 186-193): the addresses that parse, in order; an
address that does not parse is logged and skipped. -/
def pingMultiaddrs (api : PingApi) : List Bytes → List String
  | [] => []
  | a :: rest =>
    match api.NewMultiaddrBytes a with
    | Except.error _ => pingMultiaddrs api rest
    | Except.ok maddr => maddr :: pingMultiaddrs api rest

/-- The handler of `/ping/miner/{id}` (lines 164-222); `id` is the route variable `id`.  In the
branch `mi.PeerId == nil` the variable `err` is the nil error left by the successful
`StateMinerInfo`, and the argument `err.Error()` of `http.Error` is evaluated on it. -/
def pingMiner (api : PingApi) (id : String) : PingRun :=
  match api.NewFromString id with
  | Except.error e => ⟨[HandlerOp.Error e StatusInternalServerError], none, none⟩
  | Except.ok a =>
    match api.StateMinerInfo a with
    | Except.error e => ⟨[HandlerOp.Error e StatusInternalServerError], none, none⟩
    | Except.ok mi =>
      let err : Option Err := none
      match mi.PeerId with
      | none =>
        match err with
        | some e => ⟨[HandlerOp.Error e StatusInternalServerError], none, none⟩
        | none => ⟨[], none, some nilDereference⟩
      | some peerId =>
        let thePi : AddrInfo := ⟨peerId, pingMultiaddrs api mi.Multiaddrs⟩
        match api.NetConnect thePi with
        | Except.error e => ⟨[HandlerOp.Error e StatusInternalServerError], none, none⟩
        | Except.ok _ =>
          match api.NetPing thePi.ID with
          | Except.error e => ⟨[HandlerOp.Error e StatusInternalServerError], none, none⟩
          | Except.ok d =>
            ⟨[HandlerOp.HeaderSet "Content-Type" "text/html", HandlerOp.WriteHeader StatusOK],
              some (thePi.ID ++ " " ++ d), none⟩

/-- A sample of the answers to the ping handler: every identifier is an address, and the miner
info has the peer ID `peerId` and no multiaddress. -/
def samplePingApi (peerId : Option String) : PingApi where
  NewFromString := fun str => Except.ok str
  StateMinerInfo := fun _ => Except.ok ⟨peerId, []⟩
  NewMultiaddrBytes := fun _ => Except.error "empty multiaddr"
  NetConnect := fun _ => Except.ok ()
  NetPing := fun _ => Except.ok "12ms"

end Dataexpl

/-! ## Withdrawing the miner balance (node/impl/full.go, cli/withdraw.go) -/

namespace Impl

open Dataexpl

/-- The fields of `api.MinerInfo` read by `withdrawBalance`. -/
structure MinerInfo where
  Owner : Address
  Beneficiary : Address
deriving DecidableEq

/-- The fields of `types.Message` set by `withdrawBalance`. -/
structure Message where
  To : Address
  From : Address
  Value : Int
  Method : Nat
  Params : Bytes
deriving DecidableEq

/-- The method number `builtintypes.MethodsMiner.WithdrawBalance`. -/
def MethodsMinerWithdrawBalance : Nat := 16

/-- The calls `withdrawBalance` makes on the node, in order. -/
inductive NodeCall
  | StateMinerAvailableBalance (maddr : Address)
  | StateMinerInfo (maddr : Address)
  | MpoolPushMessage (msg : Message)
deriving DecidableEq

/-- The answers of the embedded APIs of `FullNodeAPI` to the calls of `withdrawBalance`:
`StateMinerAvailableBalance`, `actors.SerializeParams` of the withdraw parameters with the
given `AmountRequested`, `StateMinerInfo`, `MpoolPushMessage` followed by `Cid()` of the signed
message, and the formatter `types.FIL`. -/
structure FullNodeAPI where
  StateMinerAvailableBalance : Address → Except Err Int
  SerializeParams : Int → Except Err Bytes
  StateMinerInfo : Address → Except Err MinerInfo
  MpoolPushMessage : Message → Except Err Cid
  FIL : Int → String

/-- The method `withdrawBalance` (lines 62-107): the returned pair and the calls made. -/
def withdrawBalance (a : FullNodeAPI) (maddr : Address) (amount : Int) (fromOwner : Bool) :
    Except Err Cid × List NodeCall :=
  let t1 := [NodeCall.StateMinerAvailableBalance maddr]
  match a.StateMinerAvailableBalance maddr with
  | Except.error err => (Except.error ("Error getting miner balance: " ++ err), t1)
  | Except.ok available =>
    if amount > available then
      (Except.error ("can't withdraw more funds than available; requested: " ++ a.FIL amount
        ++ "; available: " ++ a.FIL available), t1)
    else
      let amount := if amount = 0 then available else amount
      match a.SerializeParams amount with
      | Except.error err => (Except.error err, t1)
      | Except.ok params =>
        let t2 := t1 ++ [NodeCall.StateMinerInfo maddr]
        match a.StateMinerInfo maddr with
        | Except.error err =>
          (Except.error ("Error getting miner's owner address: " ++ err), t2)
        | Except.ok mi =>
          let sender := if fromOwner then mi.Owner else mi.Beneficiary
          let msg : Message := ⟨maddr, sender, 0, MethodsMinerWithdrawBalance, params⟩
          let t3 := t2 ++ [NodeCall.MpoolPushMessage msg]
          match a.MpoolPushMessage msg with
          | Except.error err => (Except.error err, t3)
          | Except.ok c => (Except.ok c, t3)

/-- The method `ActorWithdrawBalance` (lines 54-56). -/
def ActorWithdrawBalance (a : FullNodeAPI) (maddr : Address) (amount : Int) :
    Except Err Cid × List NodeCall :=
  withdrawBalance a maddr amount true

/-- The method `BeneficiaryWithdrawBalance` (lines 58-60). -/
def BeneficiaryWithdrawBalance (a : FullNodeAPI) (maddr : Address) (amount : Int) :
    Except Err Cid × List NodeCall :=
  withdrawBalance a maddr amount false

/-- The call made by the action of `ActorWithdrawCmd` (cli/withdraw.go, lines 58-63):
`beneficiarySet` is `cctx.IsSet("beneficiary")`. -/
def withdrawCmdCall (a : FullNodeAPI) (beneficiarySet : Bool) (maddr : Address) (amount : Int) :
    Except Err Cid × List NodeCall :=
  if beneficiarySet then BeneficiaryWithdrawBalance a maddr amount
  else ActorWithdrawBalance a maddr amount

/-- A sample node: the miner has 100 available, owner `f0owner` and beneficiary `f0benef`. -/
def sampleApi : FullNodeAPI where
  StateMinerAvailableBalance := fun _ => Except.ok 100
  SerializeParams := fun n => Except.ok [0x81, n.toNat]
  StateMinerInfo := fun _ => Except.ok ⟨"f0owner", "f0benef"⟩
  MpoolPushMessage := fun _ => Except.ok ⟨DagCBOR, [160, 228, 2, 32, 1]⟩
  FIL := fun n => toString n ++ " aFIL"

/-! ## The action of the withdraw command (cli/withdraw.go, lines 33-98) -/

/-- The fields of `api.MsgLookup` read by the action: the message CID, the exit code and the
return value of the receipt, and the tipset key. -/
structure MsgLookup where
  Message : Cid
  ExitCode : Int
  Return : Bytes
  TipSet : String
deriving DecidableEq

/-- The answers to the further calls of the action: `GetFullNodeAPIV1`,
`address.NewFromString`, `types.ParseFIL`, `api.StateWaitMsg` (a lookup pointer that may be nil
and an error that may be nil), the string returned by `wait.Receipt.ExitCode.Error()`,
`api.StateNetworkVersion`, `UnmarshalCBOR` of a token amount, and the text of a CID under the
verb `%s`. -/
structure CmdEnv where
  GetFullNodeAPIV1 : Except Err Unit
  NewFromString : String → Except Err Address
  ParseFIL : String → Except Err Int
  StateWaitMsg : Cid → Nat → Option MsgLookup × Option Err
  ExitCodeError : Int → String
  StateNetworkVersion : String → Except Err Nat
  UnmarshalCBOR : Bytes → Except Err Int
  CidString : Cid → String

/-- How the action ends: it returns an error or nil, or it panics. -/
inductive ActionResult
  | returned (err : Option Err)
  | panicked (msg : String)
deriving DecidableEq

/-- What one run of the action did: how it ended, the calls of the withdraw method on the node,
and the lines printed to standard output. -/
structure CmdRun where
  result : ActionResult
  calls : List NodeCall
  out : List String
deriving DecidableEq

/-- The constant `network.Version14`. -/
def Version14 : Nat := 14

/-- The action of `ActorWithdrawCmd` (lines 33-98).  `args` are the arguments of the command,
`beneficiarySet` is `cctx.IsSet("beneficiary")` and `confidence` the flag `confidence`.  At line
77 the string of `ExitCode.Error()` is the operand of the verb `%w`, which prints an operand
that is not an error as `%!w(string=...)`. -/
def withdrawAction (env : CmdEnv) (a : FullNodeAPI) (args : List String) (beneficiarySet : Bool)
    (confidence : Int) : CmdRun :=
  match env.GetFullNodeAPIV1 with
  | Except.error err => ⟨ActionResult.returned (some err), [], []⟩
  | Except.ok _ =>
    match args with
    | [arg0, arg1] =>
      match env.NewFromString arg0 with
      | Except.error err => ⟨ActionResult.returned (some err), [], []⟩
      | Except.ok maddr =>
        match env.ParseFIL arg1 with
        | Except.error err =>
          ⟨ActionResult.returned (some ("parsing 'amount' argument: " ++ err)), [], []⟩
        | Except.ok amount =>
          match withdrawCmdCall a beneficiarySet maddr amount with
          | (Except.error err, calls) => ⟨ActionResult.returned (some err), calls, []⟩
          | (Except.ok res, calls) =>
            let out1 := ["Requested withdrawal in message " ++ env.CidString res
              ++ "\nwaiting for it to be included in a block..\n"]
            match env.StateWaitMsg res (confidence % 2 ^ 64).toNat with
            | (none, some _) => ⟨ActionResult.panicked nilDereference, calls, out1⟩
            | (some wait, some _) =>
              ⟨ActionResult.returned (some ("Timeout waiting for withdrawal message "
                ++ env.CidString wait.Message)), calls, out1⟩
            | (none, none) => ⟨ActionResult.panicked nilDereference, calls, out1⟩
            | (some wait, none) =>
              if wait.ExitCode ≠ 0 then
                ⟨ActionResult.returned (some ("Failed to execute withdrawal message "
                  ++ env.CidString wait.Message ++ ": %!w(string="
                  ++ env.ExitCodeError wait.ExitCode ++ ")")), calls, out1⟩
              else
                match env.StateNetworkVersion wait.TipSet with
                | Except.error err => ⟨ActionResult.returned (some err), calls, out1⟩
                | Except.ok nv =>
                  if nv ≥ Version14 then
                    match env.UnmarshalCBOR wait.Return with
                    | Except.error err => ⟨ActionResult.returned (some err), calls, out1⟩
                    | Except.ok withdrawn =>
                      let out2 := out1 ++ ["Successfully withdrew " ++ a.FIL withdrawn ++ " \n"]
                      if withdrawn < amount then
                        ⟨ActionResult.returned none, calls, out2
                          ++ ["Note that this is less than the requested amount of "
                            ++ a.FIL amount ++ "\n"]⟩
                      else ⟨ActionResult.returned none, calls, out2⟩
                  else ⟨ActionResult.returned none, calls, out1⟩
    | _ => ⟨ActionResult.returned (some "usage: withdraw <MinerAddr> <Amount (FIL)>"), [], []⟩

/-- A sample of the further answers: every argument is an address, an amount is a decimal
number of attoFIL, and `StateWaitMsg` answers `wait`. -/
def sampleEnv (wait : Option MsgLookup × Option Err) : CmdEnv where
  GetFullNodeAPIV1 := Except.ok ()
  NewFromString := fun str => Except.ok str
  ParseFIL := fun str =>
    if str.data ≠ [] ∧ str.data.all (fun c => c.isDigit) then
      Except.ok (str.data.foldl (fun n c => 10 * n + ((c.toNat : Int) - 48)) 0)
    else Except.error "failed to parse as a decimal number"
  StateWaitMsg := fun _ _ => wait
  ExitCodeError := fun code => toString code
  StateNetworkVersion := fun _ => Except.ok 17
  UnmarshalCBOR := fun b => Except.ok b.length
  CidString := fun c => "bafy" ++ toString c.codec

end Impl

namespace Dataexpl

/-! ## Theorems : retrieval negotiation -/

section Retrieve

/-- Once the order is submitted, a run of `retrieve` is decided by the event loop alone. -/
theorem retrieve_submitted (fapi : FullNode) (minerAddr : Address) (pieceCid file : Cid)
    (sel : Selector) (sched : List SelectCase) (payer : Address) (offer : QueryOffer)
    (res : RestrievalRes)
    (hw : fapi.WalletDefaultAddress = Except.ok payer)
    (hq : fapi.ClientMinerQueryOffer minerAddr file pieceCid = Except.ok offer)
    (he : offer.Err = "") (hp : offer.MinPrice ≤ 0)
    (hu : fapi.ClientGetRetrievalUpdates = Except.ok ())
    (hr : fapi.ClientRetrieve ⟨offer, payer, some sel⟩ = Except.ok res) :
    retrieve fapi minerAddr pieceCid file sel sched =
      (let t4 := [ApiCall.WalletDefaultAddress, ApiCall.ClientMinerQueryOffer minerAddr file pieceCid,
          ApiCall.ClientGetRetrievalUpdates, ApiCall.ClientRetrieve ⟨offer, payer, some sel⟩]
       match readEvents res.DealID sched with
       | (LoopExit.waiting, rest) => ⟨none, t4, rest⟩
       | (LoopExit.timedOut, rest) =>
         ⟨some (Except.error "Retrieval Timed Out"),
           t4 ++ [ApiCall.ClientCancelRetrievalDeal res.DealID], rest⟩
       | (LoopExit.failed e, rest) => ⟨some (Except.error e), t4, rest⟩
       | (LoopExit.completed, rest) => ⟨some (Except.ok ⟨file, [], res.DealID⟩), t4, rest⟩) := by
  have hp2 : ¬ offer.MinPrice > 0 := not_lt.mpr hp
  simp [retrieve, hw, hq, he, hp2, hu, hr]

/-- Events that do not end the loop are skipped: the loop over `pre ++ rest` continues as the
loop over `rest`. -/
theorem readEvents_skip (d : Nat) (pre : List RetrievalInfo) (rest : List SelectCase)
    (h : ∀ x ∈ pre, ¬ (x.ID = d ∧ (x.Status = DealStatus.Completed ∨ x.Status = DealStatus.Rejected
      ∨ x.Status = DealStatus.DealNotFound ∨ x.Status = DealStatus.Errored))) :
    readEvents d (pre.map SelectCase.recv ++ rest) = readEvents d rest := by
  induction pre with
  | nil => rfl
  | cons x xs ih =>
    have hx := h x (List.mem_cons_self x xs)
    have hxs : ∀ y ∈ xs, ¬ (y.ID = d ∧ (y.Status = DealStatus.Completed
        ∨ y.Status = DealStatus.Rejected ∨ y.Status = DealStatus.DealNotFound
        ∨ y.Status = DealStatus.Errored)) := fun y hy => h y (List.mem_cons_of_mem x hy)
    simp only [List.map_cons, List.cons_append, readEvents]
    by_cases hid : x.ID = d
    · simp only [hid, ne_eq, not_true_eq_false, if_false]
      cases hs : x.Status with
      | Other c => simpa using ih hxs
      | Completed => exact absurd ⟨hid, Or.inl hs⟩ hx
      | Rejected => exact absurd ⟨hid, Or.inr (Or.inl hs)⟩ hx
      | DealNotFound => exact absurd ⟨hid, Or.inr (Or.inr (Or.inl hs))⟩ hx
      | Errored => exact absurd ⟨hid, Or.inr (Or.inr (Or.inr hs))⟩ hx
    · simpa [hid] using ih hxs

/-- C1: when the offer returned by the query asks a minimum price strictly above the ceiling
(zero), `retrieve` returns an error and calls neither `ClientGetRetrievalUpdates` nor
`ClientRetrieve`; the event loop is not entered. -/
theorem retrieve_price_above_ceiling (fapi : FullNode) (minerAddr : Address) (pieceCid file : Cid)
    (sel : Selector) (sched : List SelectCase) (offer : QueryOffer)
    (hq : fapi.ClientMinerQueryOffer minerAddr file pieceCid = Except.ok offer)
    (hp : offer.MinPrice > 0) :
    (∃ e, (retrieve fapi minerAddr pieceCid file sel sched).result = some (Except.error e)) ∧
    ApiCall.ClientGetRetrievalUpdates ∉ (retrieve fapi minerAddr pieceCid file sel sched).calls ∧
    (∀ o, ApiCall.ClientRetrieve o ∉ (retrieve fapi minerAddr pieceCid file sel sched).calls) ∧
    (retrieve fapi minerAddr pieceCid file sel sched).pending = sched := by
  unfold retrieve
  cases hw : fapi.WalletDefaultAddress with
  | error err => simp
  | ok payer =>
    by_cases he : offer.Err = ""
    · simp [hq, he, hp]
    · simp [hq, he]

/-- C1, at a sample node whose offer asks 5: the run is the price error after two calls. -/
theorem retrieve_price_above_ceiling_witness :
    (∃ e, (retrieve (sampleNode 5) "f01" (sampleCid Raw 1) (sampleCid DagProtobuf 2) "sel"
      [SelectCase.ctxDone]).result = some (Except.error e)) ∧
    ApiCall.ClientGetRetrievalUpdates ∉ (retrieve (sampleNode 5) "f01" (sampleCid Raw 1)
      (sampleCid DagProtobuf 2) "sel" [SelectCase.ctxDone]).calls ∧
    (∀ o, ApiCall.ClientRetrieve o ∉ (retrieve (sampleNode 5) "f01" (sampleCid Raw 1)
      (sampleCid DagProtobuf 2) "sel" [SelectCase.ctxDone]).calls) ∧
    (retrieve (sampleNode 5) "f01" (sampleCid Raw 1) (sampleCid DagProtobuf 2) "sel"
      [SelectCase.ctxDone]).pending = [SelectCase.ctxDone] :=
  retrieve_price_above_ceiling (sampleNode 5) "f01" (sampleCid Raw 1) (sampleCid DagProtobuf 2)
    "sel" [SelectCase.ctxDone] ⟨"", sampleCid DagProtobuf 2, some (sampleCid Raw 1), 5, "f01"⟩
    rfl (by decide)

/-- C2: for the deal identifier `d` and a finite sequence of events received while the context
is not done, the event loop stays waiting when no event has the identifier `d` together with a
status among Completed, Rejected, DealNotFound, Errored; otherwise it ends at exactly the first
such event, leaving the later events unread.  An event of another deal, whatever its status, and
an event of deal `d` with any other status are passed over. -/
theorem readEvents_ends_at_first_terminal (d : Nat) (evts : List RetrievalInfo) :
    ((∀ x ∈ evts, ¬ (x.ID = d ∧ (x.Status = DealStatus.Completed ∨ x.Status = DealStatus.Rejected
        ∨ x.Status = DealStatus.DealNotFound ∨ x.Status = DealStatus.Errored))) →
      readEvents d (evts.map SelectCase.recv) = (LoopExit.waiting, [])) ∧
    (∀ pre e post, evts = pre ++ e :: post →
      (∀ x ∈ pre, ¬ (x.ID = d ∧ (x.Status = DealStatus.Completed ∨ x.Status = DealStatus.Rejected
        ∨ x.Status = DealStatus.DealNotFound ∨ x.Status = DealStatus.Errored))) →
      (e.ID = d ∧ (e.Status = DealStatus.Completed ∨ e.Status = DealStatus.Rejected
        ∨ e.Status = DealStatus.DealNotFound ∨ e.Status = DealStatus.Errored)) →
      ∃ exit, exit ≠ LoopExit.waiting ∧ exit ≠ LoopExit.timedOut ∧
        readEvents d (evts.map SelectCase.recv) = (exit, post.map SelectCase.recv)) ∧
    (∀ e rest, e.ID ≠ d → readEvents d (SelectCase.recv e :: rest) = readEvents d rest) ∧
    (∀ e rest code, e.ID = d → e.Status = DealStatus.Other code →
      readEvents d (SelectCase.recv e :: rest) = readEvents d rest) := by
  refine ⟨?_, ?_, ?_, ?_⟩
  · intro h
    have := readEvents_skip d evts [] h
    simpa [readEvents] using this
  · intro pre e post hsplit hpre hend
    have hskip := readEvents_skip d pre (SelectCase.recv e :: post.map SelectCase.recv) hpre
    have hmap : evts.map SelectCase.recv
        = pre.map SelectCase.recv ++ SelectCase.recv e :: post.map SelectCase.recv := by
      simp [hsplit]
    rw [hmap, hskip]
    obtain ⟨hid, hst⟩ := hend
    rcases hst with hs | hs | hs | hs
    · exact ⟨LoopExit.completed, by simp, by simp, by simp [readEvents, hid, hs]⟩
    · exact ⟨LoopExit.failed ("Retrieval Proposal Rejected: " ++ e.Message), by simp, by simp,
        by simp [readEvents, hid, hs]⟩
    · exact ⟨LoopExit.failed ("Retrieval Error: " ++ e.Message), by simp, by simp,
        by simp [readEvents, hid, hs]⟩
    · exact ⟨LoopExit.failed ("Retrieval Error: " ++ e.Message), by simp, by simp,
        by simp [readEvents, hid, hs]⟩
  · intro e rest hid
    simp [readEvents, hid]
  · intro e rest code hid hs
    simp [readEvents, hid, hs]

/-- C2, on four events for deal 7: a Completed event of deal 3 and a progress event of deal 7
are passed over, the loop ends at the Rejected event of deal 7 and leaves the fourth unread. -/
theorem readEvents_ends_at_first_terminal_witness :
    ∃ exit, exit ≠ LoopExit.waiting ∧ exit ≠ LoopExit.timedOut ∧
      readEvents 7 ([sampleEvt 3 DealStatus.Completed "", sampleEvt 7 (DealStatus.Other 6) "",
          sampleEvt 7 DealStatus.Rejected "no", sampleEvt 7 DealStatus.Completed ""].map
            SelectCase.recv)
        = (exit, [sampleEvt 7 DealStatus.Completed ""].map SelectCase.recv) :=
  (readEvents_ends_at_first_terminal 7
    [sampleEvt 3 DealStatus.Completed "", sampleEvt 7 (DealStatus.Other 6) "",
      sampleEvt 7 DealStatus.Rejected "no", sampleEvt 7 DealStatus.Completed ""]).2.1
    [sampleEvt 3 DealStatus.Completed "", sampleEvt 7 (DealStatus.Other 6) ""]
    (sampleEvt 7 DealStatus.Rejected "no") [sampleEvt 7 DealStatus.Completed ""]
    rfl (by decide) (by decide)

/-- C3: after the order was submitted with deal identifier `res.DealID`, an event with that
identifier and status Completed makes `retrieve` return the export reference with the requested
root and that deal identifier; status Rejected makes it return the error
`Retrieval Proposal Rejected:` followed by the message of the event; status DealNotFound or
Errored the error `Retrieval Error:` followed by the message; with any other status the event
yields no result and the run goes on with the next outcome. -/
theorem retrieve_own_event (fapi : FullNode) (minerAddr : Address) (pieceCid file : Cid)
    (sel : Selector) (payer : Address) (offer : QueryOffer) (res : RestrievalRes)
    (evt : RetrievalInfo) (rest : List SelectCase)
    (hw : fapi.WalletDefaultAddress = Except.ok payer)
    (hq : fapi.ClientMinerQueryOffer minerAddr file pieceCid = Except.ok offer)
    (he : offer.Err = "") (hp : offer.MinPrice ≤ 0)
    (hu : fapi.ClientGetRetrievalUpdates = Except.ok ())
    (hr : fapi.ClientRetrieve ⟨offer, payer, some sel⟩ = Except.ok res)
    (hid : evt.ID = res.DealID) :
    (evt.Status = DealStatus.Completed →
      (retrieve fapi minerAddr pieceCid file sel (SelectCase.recv evt :: rest)).result
        = some (Except.ok ⟨file, [], res.DealID⟩)) ∧
    (evt.Status = DealStatus.Rejected →
      (retrieve fapi minerAddr pieceCid file sel (SelectCase.recv evt :: rest)).result
        = some (Except.error ("Retrieval Proposal Rejected: " ++ evt.Message))) ∧
    (evt.Status = DealStatus.DealNotFound ∨ evt.Status = DealStatus.Errored →
      (retrieve fapi minerAddr pieceCid file sel (SelectCase.recv evt :: rest)).result
        = some (Except.error ("Retrieval Error: " ++ evt.Message))) ∧
    (∀ code, evt.Status = DealStatus.Other code →
      retrieve fapi minerAddr pieceCid file sel (SelectCase.recv evt :: rest)
        = retrieve fapi minerAddr pieceCid file sel rest) := by
  have h1 := retrieve_submitted fapi minerAddr pieceCid file sel (SelectCase.recv evt :: rest)
    payer offer res hw hq he hp hu hr
  have h2 := retrieve_submitted fapi minerAddr pieceCid file sel rest
    payer offer res hw hq he hp hu hr
  refine ⟨?_, ?_, ?_, ?_⟩
  · intro hs
    rw [h1]; simp [readEvents, hid, hs]
  · intro hs
    rw [h1]; simp [readEvents, hid, hs]
  · intro hs
    rw [h1]
    rcases hs with hs | hs <;> simp [readEvents, hid, hs]
  · intro code hs
    rw [h1, h2]; simp [readEvents, hid, hs]

/-- C3, at the sample node (deal identifier 7): a Completed event of deal 7 gives the export
reference for the requested root and deal 7. -/
theorem retrieve_own_event_witness :
    (retrieve (sampleNode 0) "f01" (sampleCid Raw 1) (sampleCid DagProtobuf 2) "sel"
      (SelectCase.recv (sampleEvt 7 DealStatus.Completed "") :: [SelectCase.ctxDone])).result
        = some (Except.ok ⟨sampleCid DagProtobuf 2, [], 7⟩) :=
  (retrieve_own_event (sampleNode 0) "f01" (sampleCid Raw 1) (sampleCid DagProtobuf 2) "sel"
    "f1payer" ⟨"", sampleCid DagProtobuf 2, some (sampleCid Raw 1), 0, "f01"⟩ ⟨7⟩
    (sampleEvt 7 DealStatus.Completed "") [SelectCase.ctxDone]
    rfl rfl rfl (by decide) rfl rfl rfl).1 rfl

end Retrieve

/-! ## Theorems : opening the archive -/

section Get

/-- C4: once the archive is opened and its roots are read, `get` fails, with the error
`wanted one root`, if and only if the number of roots is not one; with exactly one root it
succeeds and returns that root together with the DAG service over the tiered store. -/
theorem get_root_count {σ : Type} (gc : σ → Except Err (Except Err Bytes))
    (NewReadOnly : Bytes → Except Err ReadOnlyCar)
    (decode : Cid → Bytes → Except Err Node) (notFound : Cid → Err) (ss : σ)
    (memcar : Bytes) (cbs : ReadOnlyCar) (roots : List Cid)
    (hg : gc ss = Except.ok (Except.ok memcar))
    (ho : NewReadOnly memcar = Except.ok cbs)
    (hr : cbs.Roots = Except.ok roots) :
    ((∃ e, get gc NewReadOnly decode notFound ss = Except.error e) ↔ roots.length ≠ 1) ∧
    (roots.length ≠ 1 → get gc NewReadOnly decode notFound ss = Except.error "wanted one root") ∧
    (∀ r, roots = [r] → get gc NewReadOnly decode notFound ss
      = Except.ok (r, NewDAGService decode notFound (NewTieredBstore (Adapt cbs) NewMemory))) := by
  have hbad : roots.length ≠ 1 →
      get gc NewReadOnly decode notFound ss = Except.error "wanted one root" := by
    intro hlen
    simp [get, hg, ho, hr, hlen]
  have hgood : ∀ r, roots = [r] → get gc NewReadOnly decode notFound ss
      = Except.ok (r, NewDAGService decode notFound (NewTieredBstore (Adapt cbs) NewMemory)) := by
    intro r hroots
    simp [get, hg, ho, hr, hroots]
  refine ⟨⟨?_, ?_⟩, hbad, hgood⟩
  · rintro ⟨e, he⟩ hlen
    obtain ⟨r, hroots⟩ := List.length_eq_one.mp hlen
    rw [hgood r hroots] at he
    cases he
  · intro hlen
    exact ⟨"wanted one root", hbad hlen⟩

/-- C4, at a sample archive with two roots: `get` fails with the root-count error. -/
theorem get_root_count_witness :
    get sampleGc (fun _ => Except.ok (sampleCar [sampleCid Raw 1, sampleCid Raw 2]))
      sampleDecode sampleNotFound () = Except.error "wanted one root" :=
  (get_root_count sampleGc (fun _ => Except.ok (sampleCar [sampleCid Raw 1, sampleCid Raw 2]))
    sampleDecode sampleNotFound () [58, 162, 101] (sampleCar [sampleCid Raw 1, sampleCid Raw 2])
    [sampleCid Raw 1, sampleCid Raw 2] rfl rfl rfl).2.1 (by decide)

/-- C5: the DAG service `get` returns reads from the tiered store over the adapted read-only
archive store (cold) and a fresh empty in-memory overlay (warm), in that order.  In that store,
whatever the overlay comes to hold, a key held by the archive reads as the block of the archive
and only the cold tier is consulted; the warm tier is consulted only for keys the archive does
not hold; with the fresh overlay every read is the read of the archive. -/
theorem get_store_cold_first {σ : Type} (gc : σ → Except Err (Except Err Bytes))
    (NewReadOnly : Bytes → Except Err ReadOnlyCar)
    (decode : Cid → Bytes → Except Err Node) (notFound : Cid → Err) (ss : σ)
    (memcar : Bytes) (cbs : ReadOnlyCar) (r : Cid)
    (hg : gc ss = Except.ok (Except.ok memcar))
    (ho : NewReadOnly memcar = Except.ok cbs)
    (hr : cbs.Roots = Except.ok [r]) :
    get gc NewReadOnly decode notFound ss
      = Except.ok (r, NewDAGService decode notFound (NewTieredBstore (Adapt cbs) NewMemory)) ∧
    NewTieredBstore (Adapt cbs) NewMemory = ⟨cbs.Get, []⟩ ∧
    (∀ warm k b, cbs.Get k = some b →
      (NewTieredBstore (Adapt cbs) warm).Get k = (some b, [Tier.cold])) ∧
    (∀ warm k, Tier.warm ∈ ((NewTieredBstore (Adapt cbs) warm).Get k).2 → cbs.Get k = none) ∧
    (∀ warm k, cbs.Get k = none →
      (NewTieredBstore (Adapt cbs) warm).Get k = (warm.lookup k, [Tier.cold, Tier.warm])) ∧
    (∀ k, ((NewTieredBstore (Adapt cbs) NewMemory).Get k).1 = cbs.Get k) := by
  refine ⟨?_, rfl, ?_, ?_, ?_, ?_⟩
  · simp [get, hg, ho, hr]
  · intro warm k b hk
    simp [NewTieredBstore, Adapt, TieredBstore.Get, hk]
  · intro warm k hmem
    cases hk : cbs.Get k with
    | none => rfl
    | some b => simp [NewTieredBstore, Adapt, TieredBstore.Get, hk] at hmem
  · intro warm k hk
    simp [NewTieredBstore, Adapt, TieredBstore.Get, hk]
  · intro k
    cases hk : cbs.Get k with
    | none => simp [NewTieredBstore, Adapt, NewMemory, TieredBstore.Get, hk]
    | some b => simp [NewTieredBstore, Adapt, NewMemory, TieredBstore.Get, hk]

/-- C5, at a sample archive with one root: a key held by the archive and by an overlay reads as
the block of the archive, from the cold tier alone. -/
theorem get_store_cold_first_witness :
    (NewTieredBstore (Adapt (sampleCar [sampleCid Raw 1])) [(sampleCid Raw 1, [9, 9])]).Get
      (sampleCid Raw 1) = (some [1, 2, 3], [Tier.cold]) :=
  (get_store_cold_first sampleGc (fun _ => Except.ok (sampleCar [sampleCid Raw 1]))
    sampleDecode sampleNotFound () [58, 162, 101] (sampleCar [sampleCid Raw 1]) (sampleCid Raw 1)
    rfl rfl rfl).2.2.1 [(sampleCid Raw 1, [9, 9])] (sampleCid Raw 1) [1, 2, 3] (by decide)

end Get

/-! ## Theorems : link classification -/

section Links

variable {ρ : Type}

/-- The CIDs fetched in a concatenated trace. -/
theorem fetched_append (a b : List DagCall) : fetched (a ++ b) = fetched a ++ fetched b := by
  induction a with
  | nil => rfl
  | cons x xs ih => cases x <;> simp [fetched, ih]

/-- One check fetches at most the CID of its link, and every use of the DAG service it makes is
for that CID. -/
theorem checkLink_trace (lib : Lib ρ) (node : Node) (dserv : DAGService) (l : Link) :
    (checkLink lib node dserv l).2 = [] ∨ (checkLink lib node dserv l).2 = [DagCall.Get l.Cid]
      ∨ (checkLink lib node dserv l).2 = [DagCall.Get l.Cid, DagCall.NewDagReader l.Cid] := by
  unfold checkLink
  repeat' split
  all_goals simp

/-- The trace of the loop at a link: the trace of its check when the index is within the bound,
followed by the trace of the rest of the loop unless the check failed. -/
theorem parseLinksFrom_cons_trace (lib : Lib ρ) (node : Node) (dserv : DAGService)
    (maxChecks : Int) (i : Nat) (l : Link) (ls : List Link) :
    (parseLinksFrom lib node dserv maxChecks i (l :: ls)).2 =
      if (i : Int) < maxChecks then
        match (checkLink lib node dserv l).1 with
        | Except.error _ => (checkLink lib node dserv l).2
        | Except.ok _ =>
          (checkLink lib node dserv l).2 ++ (parseLinksFrom lib node dserv maxChecks (i + 1) ls).2
      else (parseLinksFrom lib node dserv maxChecks (i + 1) ls).2 := by
  simp only [parseLinksFrom]
  by_cases hi : (i : Int) < maxChecks
  · simp only [hi, if_true]
    rcases hc : checkLink lib node dserv l with ⟨r, tr⟩
    cases r with
    | error e => simp
    | ok desc =>
      rcases hrec : parseLinksFrom lib node dserv maxChecks (i + 1) ls with ⟨r2, tr2⟩
      cases r2 <;> simp
  · simp only [hi, if_false]
    rcases hrec : parseLinksFrom lib node dserv maxChecks (i + 1) ls with ⟨r2, tr2⟩
    cases r2 <;> simp

/-- The loop succeeds at a link exactly when the check of the link (if its index is within the
bound) and the rest of the loop succeed; the entry carries the name, size and CID of the link
and the description of the check, or the empty description beyond the bound. -/
theorem parseLinksFrom_cons_ok (lib : Lib ρ) (node : Node) (dserv : DAGService)
    (maxChecks : Int) (i : Nat) (l : Link) (ls : List Link) (links : List dirEntry) :
    (parseLinksFrom lib node dserv maxChecks i (l :: ls)).1 = Except.ok links ↔
      ∃ desc rest, links = ⟨l.Name, lib.SizeStr l.Size, l.Cid, desc⟩ :: rest ∧
        (parseLinksFrom lib node dserv maxChecks (i + 1) ls).1 = Except.ok rest ∧
        (if (i : Int) < maxChecks then (checkLink lib node dserv l).1 = Except.ok desc
          else desc = "") := by
  simp only [parseLinksFrom]
  by_cases hi : (i : Int) < maxChecks
  · simp only [hi, if_true]
    rcases hc : checkLink lib node dserv l with ⟨r, tr⟩
    cases r with
    | error e => simp
    | ok desc =>
      rcases hrec : parseLinksFrom lib node dserv maxChecks (i + 1) ls with ⟨r2, tr2⟩
      cases r2 with
      | error e => simp
      | ok rest =>
        simp only [Except.ok.injEq]
        constructor
        · intro h
          exact ⟨desc, rest, h.symm, rfl, rfl⟩
        · rintro ⟨d2, rest2, h1, h2, h3⟩
          subst h2 h3
          exact h1.symm
  · simp only [hi, if_false]
    rcases hrec : parseLinksFrom lib node dserv maxChecks (i + 1) ls with ⟨r2, tr2⟩
    cases r2 with
    | error e => simp
    | ok rest =>
      simp only [Except.ok.injEq]
      constructor
      · intro h
        exact ⟨"", rest, h.symm, rfl, rfl⟩
      · rintro ⟨d2, rest2, h1, h2, h3⟩
        subst h2 h3
        exact h1.symm

/-- What a successful loop returns: one entry per link, in order, with the name and CID of the
link; the entries at indices at or beyond the bound have the empty description. -/
theorem parseLinksFrom_entries (lib : Lib ρ) (node : Node) (dserv : DAGService)
    (maxChecks : Int) : ∀ (ls : List Link) (i : Nat) (links : List dirEntry),
    (parseLinksFrom lib node dserv maxChecks i ls).1 = Except.ok links →
      links.length = ls.length ∧ links.map dirEntry.Name = ls.map Link.Name ∧
      links.map dirEntry.Cid = ls.map Link.Cid ∧
      ∀ k : Nat, maxChecks ≤ (i : Int) + k → ∀ e ∈ links.drop k, e.Desc = "" := by
  intro ls
  induction ls with
  | nil =>
    intro i links h
    simp only [parseLinksFrom, Except.ok.injEq] at h
    subst h
    simp
  | cons l ls ih =>
    intro i links h
    obtain ⟨desc, rest, hlinks, hrest, hdesc⟩ :=
      (parseLinksFrom_cons_ok lib node dserv maxChecks i l ls links).mp h
    obtain ⟨hlen, hname, hcid, hdef⟩ := ih (i + 1) rest hrest
    subst hlinks
    refine ⟨by simp [hlen], by simp [hname], by simp [hcid], ?_⟩
    intro k hk e he
    cases k with
    | zero =>
      have hi : ¬ (i : Int) < maxChecks := by
        simp only [Nat.cast_zero, add_zero] at hk
        exact not_lt.mpr hk
      simp only [hi, if_false] at hdesc
      simp only [List.drop_zero, List.mem_cons] at he
      rcases he with he | he
      · subst he
        exact hdesc
      · exact hdef 0 (by push_cast; omega) e (by simpa using he)
    | succ k =>
      simp only [List.drop_succ_cons] at he
      exact hdef k (by push_cast at hk ⊢; omega) e he

/-- The uses the loop makes of the DAG service: the CIDs fetched are, in order, CIDs of links
at indices below the bound, each fetched at most once per link, and every use is for such a
link. -/
theorem parseLinksFrom_trace (lib : Lib ρ) (node : Node) (dserv : DAGService)
    (maxChecks : Int) : ∀ (ls : List Link) (i : Nat),
    List.Sublist (fetched (parseLinksFrom lib node dserv maxChecks i ls).2)
      ((ls.take (maxChecks - i).toNat).map Link.Cid) ∧
    ∀ call ∈ (parseLinksFrom lib node dserv maxChecks i ls).2,
      ∃ l ∈ ls.take (maxChecks - i).toNat,
        call = DagCall.Get l.Cid ∨ call = DagCall.NewDagReader l.Cid := by
  intro ls
  induction ls with
  | nil =>
    intro i
    simp [parseLinksFrom, fetched]
  | cons l ls ih =>
    intro i
    obtain ⟨ihs, ihm⟩ := ih (i + 1)
    rw [parseLinksFrom_cons_trace]
    by_cases hi : (i : Int) < maxChecks
    · have hn : (maxChecks - (i : Int)).toNat = (maxChecks - ((i + 1 : Nat) : Int)).toNat + 1 := by
        push_cast
        omega
      simp only [hi, if_true]
      rw [hn, List.take_succ_cons, List.map_cons]
      have hone : List.Sublist (fetched (checkLink lib node dserv l).2) [l.Cid] ∧
          ∀ call ∈ (checkLink lib node dserv l).2,
            call = DagCall.Get l.Cid ∨ call = DagCall.NewDagReader l.Cid := by
        rcases checkLink_trace lib node dserv l with h | h | h <;> rw [h] <;> simp [fetched]
      cases hr : (checkLink lib node dserv l).1 with
      | error e =>
        simp only []
        refine ⟨hone.1.trans (by simp), ?_⟩
        intro call hcall
        exact ⟨l, List.mem_cons_self _ _, hone.2 call hcall⟩
      | ok desc =>
        simp only []
        refine ⟨?_, ?_⟩
        · rw [fetched_append]
          exact List.Sublist.append hone.1 ihs
        · intro call hcall
          rcases List.mem_append.mp hcall with hc | hc
          · exact ⟨l, List.mem_cons_self _ _, hone.2 call hc⟩
          · obtain ⟨l2, hl2, h2⟩ := ihm call hc
            exact ⟨l2, List.mem_cons_of_mem _ hl2, h2⟩
    · have hn : (maxChecks - ((i + 1 : Nat) : Int)).toNat = 0 := by
        push_cast
        omega
      simp only [hi, if_false]
      rw [hn] at ihs ihm
      simp only [List.take_zero, List.map_nil, List.sublist_nil] at ihs
      refine ⟨by rw [ihs]; exact List.nil_sublist _, ?_⟩
      intro call hcall
      obtain ⟨l2, hl2, _⟩ := ihm call hcall
      simp at hl2

/-- C6: a successful `parseLinks` returns exactly one entry per link, in the order of the links,
each with the name and CID of its link, and every entry at an index at or beyond `maxChecks` has
the empty description.  The CIDs it fetches from the DAG service are CIDs of links at indices
below `maxChecks`, at most one fetch per such link, hence at most `min (len ls) maxChecks`
fetches, and every use of the DAG service is for such a link.  With 20 links and bound 16 it
returns 20 entries, the last 4 with the empty description. -/
theorem parseLinks_width_bound (lib : Lib ρ) (ls : List Link) (node : Node) (dserv : DAGService)
    (maxChecks : Int) :
    (∀ links, (parseLinks lib ls node dserv maxChecks).1 = Except.ok links →
      links.length = ls.length ∧ links.map dirEntry.Name = ls.map Link.Name ∧
      links.map dirEntry.Cid = ls.map Link.Cid ∧
      ∀ e ∈ links.drop maxChecks.toNat, e.Desc = "") ∧
    List.Sublist (fetched (parseLinks lib ls node dserv maxChecks).2)
      ((ls.take maxChecks.toNat).map Link.Cid) ∧
    (fetched (parseLinks lib ls node dserv maxChecks).2).length ≤ min ls.length maxChecks.toNat ∧
    (∀ call ∈ (parseLinks lib ls node dserv maxChecks).2, ∃ l ∈ ls.take maxChecks.toNat,
      call = DagCall.Get l.Cid ∨ call = DagCall.NewDagReader l.Cid) ∧
    (ls.length = 20 → maxChecks = 16 →
      ∀ links, (parseLinks lib ls node dserv maxChecks).1 = Except.ok links →
        links.length = 20 ∧ (links.drop 16).length = 4 ∧ ∀ e ∈ links.drop 16, e.Desc = "") := by
  have hent := parseLinksFrom_entries lib node dserv maxChecks ls 0
  have htr := parseLinksFrom_trace lib node dserv maxChecks ls 0
  simp only [Nat.cast_zero, sub_zero, zero_add] at hent htr
  have hmain : ∀ links, (parseLinks lib ls node dserv maxChecks).1 = Except.ok links →
      links.length = ls.length ∧ links.map dirEntry.Name = ls.map Link.Name ∧
      links.map dirEntry.Cid = ls.map Link.Cid ∧
      ∀ e ∈ links.drop maxChecks.toNat, e.Desc = "" := by
    intro links h
    obtain ⟨h1, h2, h3, h4⟩ := hent links h
    exact ⟨h1, h2, h3, h4 maxChecks.toNat (Int.self_le_toNat maxChecks)⟩
  refine ⟨hmain, htr.1, ?_, htr.2, ?_⟩
  · have := htr.1.length_le
    simpa [List.length_take, Nat.min_comm] using this
  · intro hlen hm links h
    obtain ⟨h1, _, _, h4⟩ := hmain links h
    subst hm
    refine ⟨h1.trans hlen, ?_, ?_⟩
    · simp [h1, hlen]
    · simpa using h4

/-- C6, on 20 sample links to raw blocks with bound 16: 20 entries come back and the last 4 have
the empty description. -/
theorem parseLinks_width_bound_witness :
    (parseLinks sampleLib (sampleLinks 20) sampleDir (sampleDserv []) 16).1
      = Except.ok ((sampleLinks 20).map (fun l => ⟨l.Name, toString l.Size ++ " B", l.Cid,
          if l.Size < 16 then "FILE (application/octet-stream)" else ""⟩)) ∧
    ((sampleLinks 20).map (fun l => (⟨l.Name, toString l.Size ++ " B", l.Cid,
          if l.Size < 16 then "FILE (application/octet-stream)" else ""⟩ : dirEntry))).length = 20 ∧
    (((sampleLinks 20).map (fun l => (⟨l.Name, toString l.Size ++ " B", l.Cid,
          if l.Size < 16 then "FILE (application/octet-stream)" else ""⟩ : dirEntry))).drop
            16).length = 4 ∧
    ∀ e ∈ ((sampleLinks 20).map (fun l => (⟨l.Name, toString l.Size ++ " B", l.Cid,
          if l.Size < 16 then "FILE (application/octet-stream)" else ""⟩ : dirEntry))).drop 16,
      e.Desc = "" :=
  ⟨by decide,
    (parseLinks_width_bound sampleLib (sampleLinks 20) sampleDir (sampleDserv []) 16).2.2.2.2
      (by decide) rfl _ (by decide)⟩

/-- The result of the loop at a link. -/
theorem parseLinksFrom_cons_fst (lib : Lib ρ) (node : Node) (dserv : DAGService)
    (maxChecks : Int) (i : Nat) (l : Link) (ls : List Link) :
    (parseLinksFrom lib node dserv maxChecks i (l :: ls)).1 =
      if (i : Int) < maxChecks then
        match (checkLink lib node dserv l).1 with
        | Except.error err => Except.error err
        | Except.ok desc =>
          match (parseLinksFrom lib node dserv maxChecks (i + 1) ls).1 with
          | Except.error err => Except.error err
          | Except.ok links => Except.ok (⟨l.Name, lib.SizeStr l.Size, l.Cid, desc⟩ :: links)
      else
        match (parseLinksFrom lib node dserv maxChecks (i + 1) ls).1 with
        | Except.error err => Except.error err
        | Except.ok links => Except.ok (⟨l.Name, lib.SizeStr l.Size, l.Cid, ""⟩ :: links) := by
  simp only [parseLinksFrom]
  by_cases hi : (i : Int) < maxChecks
  · simp only [hi, if_true]
    rcases hc : checkLink lib node dserv l with ⟨r, tr⟩
    cases r with
    | error e => simp
    | ok desc =>
      rcases hrec : parseLinksFrom lib node dserv maxChecks (i + 1) ls with ⟨r2, tr2⟩
      cases r2 <;> simp
  · simp only [hi, if_false]
    rcases hrec : parseLinksFrom lib node dserv maxChecks (i + 1) ls with ⟨r2, tr2⟩
    cases r2 <;> simp

/-- When the loop succeeds on `pre`, the loop on `pre ++ rest` is decided by the loop on `rest`
from the index after `pre`. -/
theorem parseLinksFrom_append (lib : Lib ρ) (node : Node) (dserv : DAGService)
    (maxChecks : Int) (rest : List Link) : ∀ (pre : List Link) (i : Nat) (es : List dirEntry),
    (parseLinksFrom lib node dserv maxChecks i pre).1 = Except.ok es →
    (parseLinksFrom lib node dserv maxChecks i (pre ++ rest)).1 =
      match (parseLinksFrom lib node dserv maxChecks (i + pre.length) rest).1 with
      | Except.error err => Except.error err
      | Except.ok links => Except.ok (es ++ links) := by
  intro pre
  induction pre with
  | nil =>
    intro i es h
    simp only [parseLinksFrom, Except.ok.injEq] at h
    subst h
    cases hr : (parseLinksFrom lib node dserv maxChecks i rest).1 <;> simp [hr]
  | cons l ls ih =>
    intro i es h
    obtain ⟨desc, tl, hes, htl, hdesc⟩ :=
      (parseLinksFrom_cons_ok lib node dserv maxChecks i l ls es).mp h
    have hrec := ih (i + 1) tl htl
    have hidx : i + 1 + ls.length = i + (l :: ls).length := by simp; omega
    rw [hidx] at hrec
    rw [List.cons_append, parseLinksFrom_cons_fst, hrec]
    subst hes
    by_cases hi : (i : Int) < maxChecks
    · simp only [hi, if_true] at hdesc ⊢
      rw [hdesc]
      cases hr : (parseLinksFrom lib node dserv maxChecks (i + (l :: ls).length) rest).1 <;> simp
    · simp only [hi, if_false] at hdesc ⊢
      subst hdesc
      cases hr : (parseLinksFrom lib node dserv maxChecks (i + (l :: ls).length) rest).1 <;> simp

/-- When the links before `l` were listed without error and the index of `l` is within the
bound, `parseLinks` is decided at `l` by the check of `l`, then by the rest of the loop. -/
theorem parseLinks_at (lib : Lib ρ) (node : Node) (dserv : DAGService) (maxChecks : Int)
    (pre : List Link) (l : Link) (post : List Link) (preEntries : List dirEntry)
    (hpre : (parseLinks lib pre node dserv maxChecks).1 = Except.ok preEntries)
    (hlt : (pre.length : Int) < maxChecks) :
    (parseLinks lib (pre ++ l :: post) node dserv maxChecks).1 =
      match (checkLink lib node dserv l).1 with
      | Except.error err => Except.error err
      | Except.ok desc =>
        match (parseLinksFrom lib node dserv maxChecks (pre.length + 1) post).1 with
        | Except.error err => Except.error err
        | Except.ok links =>
          Except.ok (preEntries ++ ⟨l.Name, lib.SizeStr l.Size, l.Cid, desc⟩ :: links) := by
  unfold parseLinks at hpre ⊢
  rw [parseLinksFrom_append lib node dserv maxChecks (l :: post) pre 0 preEntries hpre,
    parseLinksFrom_cons_fst]
  simp only [zero_add, hlt, if_true]
  cases hc : (checkLink lib node dserv l).1 with
  | error e => rfl
  | ok desc =>
    cases hr : (parseLinksFrom lib node dserv maxChecks (pre.length + 1) post).1 <;> rfl

/-- C7 (amended): let the links before `l` be listed without error and the index of `l` be
within the bound.  When `l` is a dag-pb child whose UnixFS descriptor does not decode, whose
UnixFS type is none of directory, HAMT shard, symlink and file, whose reader cannot be built or
whose content type cannot be sniffed, or a raw child whose content type cannot be sniffed,
`parseLinks` returns that error and no entries.  Only a dag-pb child whose block cannot be
fetched, or whose node is not a protobuf node, is degraded to the placeholder description
`DAG-PB`, respectively `?? (e1)`, and the listing goes on. -/
theorem parseLinks_child_failure (lib : Lib ρ) (node : Node) (dserv : DAGService)
    (maxChecks : Int) (pre : List Link) (l : Link) (post : List Link)
    (preEntries : List dirEntry)
    (hpre : (parseLinks lib pre node dserv maxChecks).1 = Except.ok preEntries)
    (hlt : (pre.length : Int) < maxChecks) :
    (l.Cid.codec = DagProtobuf → ∀ fnode, dserv.Get l.Cid = Except.ok fnode →
      fnode.isProtoNode = true →
      (∀ e, lib.FSNodeFromBytes fnode.Data = Except.error e →
        (parseLinks lib (pre ++ l :: post) node dserv maxChecks).1 = Except.error e) ∧
      (∀ t, lib.FSNodeFromBytes fnode.Data = Except.ok t → t ≠ UfsType.TDirectory →
        t ≠ UfsType.THAMTShard → t ≠ UfsType.TSymlink → t ≠ UfsType.TFile →
        (parseLinks lib (pre ++ l :: post) node dserv maxChecks).1
          = Except.error ("unknown ufs type " ++ lib.SprintType t)) ∧
      (∀ e, lib.FSNodeFromBytes fnode.Data = Except.ok UfsType.TFile →
        lib.NewDagReader fnode dserv = Except.error e →
        (parseLinks lib (pre ++ l :: post) node dserv maxChecks).1 = Except.error e) ∧
      (∀ rrd e, lib.FSNodeFromBytes fnode.Data = Except.ok UfsType.TFile →
        lib.NewDagReader fnode dserv = Except.ok rrd → lib.TypeByExtension (Ext l.Name) = "" →
        lib.DetectReader rrd = Except.error e →
        (parseLinks lib (pre ++ l :: post) node dserv maxChecks).1 = Except.error e)) ∧
    (l.Cid.codec = Raw → ∀ e, lib.TypeByExtension (Ext l.Name) = "" →
      lib.DetectReader (lib.NewReader node.RawData) = Except.error e →
      (parseLinks lib (pre ++ l :: post) node dserv maxChecks).1 = Except.error e) ∧
    (l.Cid.codec = DagProtobuf → ∀ e links, dserv.Get l.Cid = Except.error e →
      (parseLinksFrom lib node dserv maxChecks (pre.length + 1) post).1 = Except.ok links →
      (parseLinks lib (pre ++ l :: post) node dserv maxChecks).1
        = Except.ok (preEntries ++ ⟨l.Name, lib.SizeStr l.Size, l.Cid, "DAG-PB"⟩ :: links)) ∧
    (l.Cid.codec = DagProtobuf → ∀ fnode links, dserv.Get l.Cid = Except.ok fnode →
      fnode.isProtoNode = false →
      (parseLinksFrom lib node dserv maxChecks (pre.length + 1) post).1 = Except.ok links →
      (parseLinks lib (pre ++ l :: post) node dserv maxChecks).1
        = Except.ok (preEntries ++ ⟨l.Name, lib.SizeStr l.Size, l.Cid, "?? (e1)"⟩ :: links)) := by
  have hat := parseLinks_at lib node dserv maxChecks pre l post preEntries hpre hlt
  have hraw : Raw ≠ DagProtobuf := by decide
  refine ⟨?_, ?_, ?_, ?_⟩
  · intro hc fnode hget hproto
    refine ⟨?_, ?_, ?_, ?_⟩
    · intro e hfs
      rw [hat]; simp [checkLink, hc, hget, hproto, hfs]
    · intro t hfs h1 h2 h3 h4
      rw [hat]
      cases t <;> simp_all [checkLink]
    · intro e hfs hrd
      rw [hat]; simp [checkLink, hc, hget, hproto, hfs, hrd]
    · intro rrd e hfs hrd hext hdet
      rw [hat]; simp [checkLink, fileCtype, hc, hget, hproto, hfs, hrd, hext, hdet]
  · intro hc e hext hdet
    rw [hat]; simp [checkLink, fileCtype, hc, hraw, hext, hdet]
  · intro hc e links hget hrest
    rw [hat]; simp [checkLink, hc, hget, hrest]
  · intro hc fnode links hget hproto hrest
    rw [hat]; simp [checkLink, hc, hget, hproto, hrest]

/-- C7 (amended), on a sample directory whose second child has the truncated descriptor `[8]`:
the listing fails with the decoding error. -/
theorem parseLinks_child_failure_witness :
    (parseLinks sampleLib ([⟨"a.png", 3, sampleCid Raw 1⟩]
        ++ ⟨"b", 1, sampleCid DagProtobuf 2⟩ :: [⟨"c.png", 3, sampleCid Raw 3⟩]) sampleDir
      (sampleDserv [(sampleCid DagProtobuf 2, ⟨true, [8], [10, 1, 8], []⟩)]) 16).1
      = Except.error "unexpected EOF" :=
  ((parseLinks_child_failure sampleLib sampleDir
    (sampleDserv [(sampleCid DagProtobuf 2, ⟨true, [8], [10, 1, 8], []⟩)]) 16
    [⟨"a.png", 3, sampleCid Raw 1⟩] ⟨"b", 1, sampleCid DagProtobuf 2⟩
    [⟨"c.png", 3, sampleCid Raw 3⟩]
    [⟨"a.png", "3 B", sampleCid Raw 1, "FILE (image/png)"⟩] (by decide) (by decide)).1
    rfl ⟨true, [8], [10, 1, 8], []⟩ (by decide) rfl).1 "unexpected EOF" (by decide)

/-- C7, refuted as stated: in a sample directory of three children within the bound, the second
with a UnixFS descriptor that does not decode, `parseLinks` returns the decoding error and no
entry, not a listing of three entries. -/
theorem parseLinks_aborts_on_undecodable_child :
    sampleLib.FSNodeFromBytes [8] = Except.error "unexpected EOF" ∧
    parseLinks sampleLib [⟨"a.png", 3, sampleCid Raw 1⟩, ⟨"b", 1, sampleCid DagProtobuf 2⟩,
        ⟨"c.png", 3, sampleCid Raw 3⟩] sampleDir
      (sampleDserv [(sampleCid DagProtobuf 2, ⟨true, [8], [10, 1, 8], []⟩)]) 16
      = (Except.error "unexpected EOF", [DagCall.Get (sampleCid DagProtobuf 2)]) ∧
    ¬ ∃ links : List dirEntry, (parseLinks sampleLib [⟨"a.png", 3, sampleCid Raw 1⟩,
        ⟨"b", 1, sampleCid DagProtobuf 2⟩, ⟨"c.png", 3, sampleCid Raw 3⟩] sampleDir
      (sampleDserv [(sampleCid DagProtobuf 2, ⟨true, [8], [10, 1, 8], []⟩)]) 16).1
      = Except.ok links := by
  refine ⟨by decide, by decide, ?_⟩
  rintro ⟨links, h⟩
  have h2 : (parseLinks sampleLib [⟨"a.png", 3, sampleCid Raw 1⟩,
        ⟨"b", 1, sampleCid DagProtobuf 2⟩, ⟨"c.png", 3, sampleCid Raw 3⟩] sampleDir
      (sampleDserv [(sampleCid DagProtobuf 2, ⟨true, [8], [10, 1, 8], []⟩)]) 16).1
      = Except.error "unexpected EOF" := by decide
  rw [h2] at h
  cases h

/-- The digit characters written for base 16 are lowercase hexadecimal digits. -/
theorem toDigitsCore_hex (fuel : Nat) : ∀ (n : Nat) (acc : List Char),
    (∀ ch ∈ acc, ch ∈ "0123456789abcdef".data) →
    ∀ ch ∈ Nat.toDigitsCore 16 fuel n acc, ch ∈ "0123456789abcdef".data := by
  induction fuel with
  | zero =>
    intro n acc hacc
    simpa [Nat.toDigitsCore] using hacc
  | succ f ih =>
    intro n acc hacc
    have hd : ∀ d, d < 16 → Nat.digitChar d ∈ "0123456789abcdef".data := by decide
    have hcons : ∀ ch ∈ Nat.digitChar (n % 16) :: acc, ch ∈ "0123456789abcdef".data := by
      intro ch hch
      rcases List.mem_cons.mp hch with h | h
      · rw [h]
        exact hd (n % 16) (Nat.mod_lt n (by decide))
      · exact hacc ch h
    simp only [Nat.toDigitsCore]
    split
    · exact hcons
    · exact ih (n / 16) _ hcons

/-- C8 (amended): the triple returned by `linkDesc` is a function of the codec of the CID, of the
node the DAG service returns for the CID (or its absence), of the MIME type of the extension of
the name, and of the reader built over the fetched node and the DAG service: two calls that
agree on these return the same description, flag and error.  For a codec that is neither dag-pb
nor raw the whole result depends on the codec alone. -/
theorem linkDesc_determined (lib : Lib ρ) (c1 c2 : Cid) (name1 name2 : String)
    (dserv1 dserv2 : DAGService)
    (hcodec : c1.codec = c2.codec)
    (hget : (dserv1.Get c1).toOption = (dserv2.Get c2).toOption)
    (hext : lib.TypeByExtension (Ext name1) = lib.TypeByExtension (Ext name2))
    (hrd : ∀ fnode, dserv1.Get c1 = Except.ok fnode →
      lib.NewDagReader fnode dserv1 = lib.NewDagReader fnode dserv2) :
    (linkDesc lib c1 name1 dserv1).1 = (linkDesc lib c2 name2 dserv2).1 ∧
    (c1.codec ≠ DagProtobuf → c1.codec ≠ Raw →
      ∀ (n1 n2 : String) (d1 d2 : DAGService),
        (linkDesc lib c1 n1 d1).1 = (linkDesc lib c2 n2 d2).1 ∧
        (linkDesc lib c1 n1 d1).2 = [] ∧ (linkDesc lib c2 n2 d2).2 = []) := by
  constructor
  · unfold linkDesc
    rw [← hcodec]
    cases h1 : dserv1.Get c1 with
    | error e1 =>
      cases h2 : dserv2.Get c2 with
      | error e2 =>
        simp only []
        split_ifs <;> rfl
      | ok n2 => simp [h1, h2, Except.toOption] at hget
    | ok n1 =>
      cases h2 : dserv2.Get c2 with
      | error e2 => simp [h1, h2, Except.toOption] at hget
      | ok n2 =>
        have hn : n1 = n2 := by simpa [h1, h2, Except.toOption] using hget
        subst hn
        have hr := hrd n1 h1
        simp only [fileCtype, hext, hr]
        repeat' split
        all_goals rfl
  · intro hpb hraw n1 n2 d1 d2
    unfold linkDesc
    rw [← hcodec]
    simp only [hpb, hraw, if_false]
    by_cases hc : c1.codec = DagCBOR <;> simp [hc]

/-- C8 (amended), on two sample raw CIDs whose fetched node is the same, with the names
`one.bin` and `two.dat`: both calls return the description sniffed from the node. -/
theorem linkDesc_determined_witness :
    (linkDesc sampleLib (sampleCid Raw 1) "one.bin"
      (sampleDserv [(sampleCid Raw 1, samplePng), (sampleCid Raw 2, samplePng)])).1
    = (linkDesc sampleLib (sampleCid Raw 2) "two.dat"
      (sampleDserv [(sampleCid Raw 1, samplePng), (sampleCid Raw 2, samplePng)])).1 :=
  (linkDesc_determined sampleLib (sampleCid Raw 1) (sampleCid Raw 2) "one.bin" "two.dat"
    (sampleDserv [(sampleCid Raw 1, samplePng), (sampleCid Raw 2, samplePng)])
    (sampleDserv [(sampleCid Raw 1, samplePng), (sampleCid Raw 2, samplePng)])
    rfl (by decide) (by decide) (fun _ _ => rfl)).1

/-- C8, refuted as stated: for one raw CID and one node, the names `a.html` and `a.png` give
two different descriptions; and for one dag-pb CID and one file node, a store that holds the
chunk of the file and a store that does not give two different results. -/
theorem linkDesc_depends_on_name_and_store :
    (linkDesc sampleLib (sampleCid Raw 1) "a.html" (sampleDserv [(sampleCid Raw 1, samplePng)])).1
      = ⟨"FILE (raw,text/html; charset=utf-8)", true, none⟩ ∧
    (linkDesc sampleLib (sampleCid Raw 1) "a.png" (sampleDserv [(sampleCid Raw 1, samplePng)])).1
      = ⟨"FILE (raw,image/png)", true, none⟩ ∧
    (linkDesc sampleLib (sampleCid DagProtobuf 2) "f"
      (sampleDserv [(sampleCid DagProtobuf 2, sampleFile), (sampleCid Raw 9, samplePng)])).1
      = ⟨"FILE (pb,image/png)", true, none⟩ ∧
    (linkDesc sampleLib (sampleCid DagProtobuf 2) "f"
      (sampleDserv [(sampleCid DagProtobuf 2, sampleFile)])).1
      = ⟨"", false, some "ipld: could not find node"⟩ := by
  decide

/-- C9: for a CID whose codec is none of dag-pb, raw and dag-cbor, `linkDesc` returns the
description `UNK:0x` followed by the codec in lowercase hexadecimal, the flag true and no error,
and makes no use of the DAG service. -/
theorem linkDesc_unknown_codec (lib : Lib ρ) (c : Cid) (name : String) (dserv : DAGService)
    (hpb : c.codec ≠ DagProtobuf) (hraw : c.codec ≠ Raw) (hcbor : c.codec ≠ DagCBOR) :
    linkDesc lib c name dserv = (⟨"UNK:0x" ++ hex c.codec, true, none⟩, []) ∧
    (hex c.codec).data = Nat.toDigits 16 c.codec ∧
    (∀ ch ∈ (hex c.codec).data, ch ∈ "0123456789abcdef".data) := by
  refine ⟨by simp [linkDesc, hpb, hraw, hcbor], rfl, ?_⟩
  exact toDigitsCore_hex _ _ [] (by simp)

/-- C9, at the codec 0x12b0: the description is `UNK:0x12b0`. -/
theorem linkDesc_unknown_codec_witness :
    linkDesc sampleLib (sampleCid 0x12b0 1) "x" (sampleDserv [])
      = (⟨"UNK:0x12b0", true, none⟩, []) :=
  (linkDesc_unknown_codec sampleLib (sampleCid 0x12b0 1) "x" (sampleDserv [])
    (by decide) (by decide) (by decide)).1

/-- C10, the code at a failing input: a directory with one child of codec 0x129 (dag-json),
within the bound 16.  `parseLinks` succeeds and leaves the description of the child empty, where
`linkDesc` describes the same CID as `UNK:0x129`. -/
theorem parseLinks_unknown_codec_left_empty :
    parseLinks sampleLib [⟨"x", 3, sampleCid 0x129 1⟩] sampleDir (sampleDserv []) 16
      = (Except.ok [⟨"x", "3 B", sampleCid 0x129 1, ""⟩], []) ∧
    (linkDesc sampleLib (sampleCid 0x129 1) "x" (sampleDserv [])).1
      = ⟨"UNK:0x129", true, none⟩ := by
  decide

end Links

/-! ## Theorems : order of the calls of `retrieve`, offer errors, cancellation -/

section RetrieveCalls

/-- The calls of a run that reached the event loop: the four calls up to the submission, then
the cancellation request if the loop was left because the context was done. -/
theorem retrieve_submitted_calls (fapi : FullNode) (minerAddr : Address) (pieceCid file : Cid)
    (sel : Selector) (sched : List SelectCase) (payer : Address) (offer : QueryOffer)
    (res : RestrievalRes)
    (hw : fapi.WalletDefaultAddress = Except.ok payer)
    (hq : fapi.ClientMinerQueryOffer minerAddr file pieceCid = Except.ok offer)
    (he : offer.Err = "") (hp : offer.MinPrice ≤ 0)
    (hu : fapi.ClientGetRetrievalUpdates = Except.ok ())
    (hr : fapi.ClientRetrieve ⟨offer, payer, some sel⟩ = Except.ok res) :
    ∃ post, (retrieve fapi minerAddr pieceCid file sel sched).calls =
      [ApiCall.WalletDefaultAddress, ApiCall.ClientMinerQueryOffer minerAddr file pieceCid]
        ++ ApiCall.ClientGetRetrievalUpdates :: ApiCall.ClientRetrieve ⟨offer, payer, some sel⟩
        :: post := by
  rw [retrieve_submitted fapi minerAddr pieceCid file sel sched payer offer res hw hq he hp hu hr]
  rcases hl : readEvents res.DealID sched with ⟨exit, rest⟩
  cases exit with
  | completed => exact ⟨[], by simp⟩
  | failed e => exact ⟨[], by simp⟩
  | timedOut => exact ⟨[ApiCall.ClientCancelRetrievalDeal res.DealID], by simp⟩
  | waiting => exact ⟨[], by simp⟩

/-- C11: in every run of `retrieve` whose calls include `ClientRetrieve`, the call
`ClientGetRetrievalUpdates` was made just before it and had succeeded; when opening the
subscription fails, `retrieve` returns an error and `ClientRetrieve` is never called. -/
theorem retrieve_subscribes_before_submit (fapi : FullNode) (minerAddr : Address)
    (pieceCid file : Cid) (sel : Selector) (sched : List SelectCase) :
    (∀ o, ApiCall.ClientRetrieve o ∈ (retrieve fapi minerAddr pieceCid file sel sched).calls →
      fapi.ClientGetRetrievalUpdates = Except.ok () ∧
      ∃ pre post, (retrieve fapi minerAddr pieceCid file sel sched).calls
        = pre ++ ApiCall.ClientGetRetrievalUpdates :: ApiCall.ClientRetrieve o :: post ∧
        ApiCall.ClientRetrieve o ∉ pre) ∧
    (∀ e, fapi.ClientGetRetrievalUpdates = Except.error e →
      (∃ m, (retrieve fapi minerAddr pieceCid file sel sched).result = some (Except.error m)) ∧
      ∀ o, ApiCall.ClientRetrieve o ∉ (retrieve fapi minerAddr pieceCid file sel sched).calls) ∧
    (∀ e payer offer, fapi.WalletDefaultAddress = Except.ok payer →
      fapi.ClientMinerQueryOffer minerAddr file pieceCid = Except.ok offer →
      offer.Err = "" → offer.MinPrice ≤ 0 → fapi.ClientGetRetrievalUpdates = Except.error e →
      (retrieve fapi minerAddr pieceCid file sel sched).result
        = some (Except.error ("error setting up retrieval updates: " ++ e))) := by
  refine ⟨?_, ?_, ?_⟩
  · intro o ho
    cases hw : fapi.WalletDefaultAddress with
    | error e => simp [retrieve, hw] at ho
    | ok payer =>
      cases hq : fapi.ClientMinerQueryOffer minerAddr file pieceCid with
      | error e => simp [retrieve, hw, hq] at ho
      | ok offer =>
        by_cases he : offer.Err = ""
        · by_cases hp : offer.MinPrice > 0
          · simp [retrieve, hw, hq, he, hp] at ho
          · cases hu : fapi.ClientGetRetrievalUpdates with
            | error e => simp [retrieve, hw, hq, he, hp, hu] at ho
            | ok u =>
              cases hr : fapi.ClientRetrieve ⟨offer, payer, some sel⟩ with
              | error e =>
                simp only [retrieve, hw, hq, he, hp, hu, hr, ne_eq, not_true_eq_false,
                  if_false] at ho ⊢
                simp only [List.mem_append, List.mem_singleton, List.mem_cons, List.mem_nil_iff,
                  or_false, false_or, reduceCtorEq] at ho
                injection ho with ho
                subst ho
                exact ⟨trivial, [ApiCall.WalletDefaultAddress,
                  ApiCall.ClientMinerQueryOffer minerAddr file pieceCid], [], by simp, by simp⟩
              | ok res =>
                obtain ⟨post, hcalls⟩ := retrieve_submitted_calls fapi minerAddr pieceCid file sel
                  sched payer offer res hw hq he (not_lt.mp hp) hu hr
                rw [hcalls] at ho ⊢
                have ho2 : o = ⟨offer, payer, some sel⟩ ∨ ApiCall.ClientRetrieve o ∈ post := by
                  simpa using ho
                rcases ho2 with ho2 | ho2
                · subst ho2
                  exact ⟨rfl, _, post, rfl, by simp⟩
                · have hpost : post = [] ∨ post = [ApiCall.ClientCancelRetrievalDeal res.DealID] := by
                    have hrun := retrieve_submitted fapi minerAddr pieceCid file sel sched payer
                      offer res hw hq he (not_lt.mp hp) hu hr
                    rw [hrun] at hcalls
                    rcases hl : readEvents res.DealID sched with ⟨exit, rest⟩
                    rw [hl] at hcalls
                    cases exit <;> simp at hcalls <;> simp [← hcalls]
                  rcases hpost with h | h <;> simp [h] at ho2
        · simp [retrieve, hw, hq, he] at ho
  · intro e hu
    cases hw : fapi.WalletDefaultAddress with
    | error e => simp [retrieve, hw]
    | ok payer =>
      cases hq : fapi.ClientMinerQueryOffer minerAddr file pieceCid with
      | error e => simp [retrieve, hw, hq]
      | ok offer =>
        by_cases he : offer.Err = ""
        · by_cases hp : offer.MinPrice > 0
          · simp [retrieve, hw, hq, he, hp]
          · simp [retrieve, hw, hq, he, hp, hu]
        · simp [retrieve, hw, hq, he]
  · intro e payer offer hw hq he hp hu
    have hp2 : ¬ offer.MinPrice > 0 := not_lt.mpr hp
    simp [retrieve, hw, hq, he, hp2, hu]

/-- C11, at a sample node whose subscription cannot be opened: the run ends with the error of
the subscription and its calls hold no `ClientRetrieve`. -/
theorem retrieve_subscribes_before_submit_witness :
    (∃ m, (retrieve { sampleNode 0 with ClientGetRetrievalUpdates := Except.error "closed" }
      "f01" (sampleCid Raw 1) (sampleCid DagProtobuf 2) "sel" []).result
        = some (Except.error m)) ∧
    ∀ o, ApiCall.ClientRetrieve o ∉
      (retrieve { sampleNode 0 with ClientGetRetrievalUpdates := Except.error "closed" }
        "f01" (sampleCid Raw 1) (sampleCid DagProtobuf 2) "sel" []).calls :=
  (retrieve_subscribes_before_submit
    { sampleNode 0 with ClientGetRetrievalUpdates := Except.error "closed" }
    "f01" (sampleCid Raw 1) (sampleCid DagProtobuf 2) "sel" []).2.1 "closed" rfl

/-- C12: with the payer address obtained, when `ClientMinerQueryOffer` fails `retrieve` returns
the error `offer: ` followed by the message of that failure, and when it returns an offer whose
`Err` is not empty `retrieve` returns the error `offer error: ` followed by that `Err`; in both
cases the calls made are `WalletDefaultAddress` and `ClientMinerQueryOffer` only, so neither
`ClientGetRetrievalUpdates` nor `ClientRetrieve` is called. -/
theorem retrieve_offer_failure (fapi : FullNode) (minerAddr : Address) (pieceCid file : Cid)
    (sel : Selector) (sched : List SelectCase) (payer : Address)
    (hw : fapi.WalletDefaultAddress = Except.ok payer) :
    (∀ e, fapi.ClientMinerQueryOffer minerAddr file pieceCid = Except.error e →
      (retrieve fapi minerAddr pieceCid file sel sched).result
        = some (Except.error ("offer: " ++ e)) ∧
      (retrieve fapi minerAddr pieceCid file sel sched).calls
        = [ApiCall.WalletDefaultAddress, ApiCall.ClientMinerQueryOffer minerAddr file pieceCid] ∧
      ApiCall.ClientGetRetrievalUpdates ∉ (retrieve fapi minerAddr pieceCid file sel sched).calls ∧
      ∀ o, ApiCall.ClientRetrieve o ∉ (retrieve fapi minerAddr pieceCid file sel sched).calls) ∧
    (∀ offer, fapi.ClientMinerQueryOffer minerAddr file pieceCid = Except.ok offer →
      offer.Err ≠ "" →
      (retrieve fapi minerAddr pieceCid file sel sched).result
        = some (Except.error ("offer error: " ++ offer.Err)) ∧
      (retrieve fapi minerAddr pieceCid file sel sched).calls
        = [ApiCall.WalletDefaultAddress, ApiCall.ClientMinerQueryOffer minerAddr file pieceCid] ∧
      ApiCall.ClientGetRetrievalUpdates ∉ (retrieve fapi minerAddr pieceCid file sel sched).calls ∧
      ∀ o, ApiCall.ClientRetrieve o ∉ (retrieve fapi minerAddr pieceCid file sel sched).calls) := by
  constructor
  · intro e hq
    simp [retrieve, hw, hq]
  · intro offer hq he
    simp [retrieve, hw, hq, he]

/-- C12, at a sample node whose offer query fails with `no such piece`: the run returns
`offer: no such piece`. -/
theorem retrieve_offer_failure_witness :
    (retrieve { sampleNode 0 with ClientMinerQueryOffer := fun _ _ _ => Except.error "no such piece" }
      "f01" (sampleCid Raw 1) (sampleCid DagProtobuf 2) "sel" []).result
        = some (Except.error ("offer: " ++ "no such piece")) :=
  ((retrieve_offer_failure
    { sampleNode 0 with ClientMinerQueryOffer := fun _ _ _ => Except.error "no such piece" }
    "f01" (sampleCid Raw 1) (sampleCid DagProtobuf 2) "sel" [] "f1payer" rfl).1
    "no such piece" rfl).1

/-- C13: after the order was submitted, when the context is done while the loop has only passed
over events that do not end it, `retrieve` returns the error `Retrieval Timed Out` (so no export
reference) having issued the cancellation request for the deal.  No run of `retrieve` depends
on the answer of `ClientCancelRetrievalDeal`.  A run that ends at an event of its deal with
status Rejected, DealNotFound or Errored never returns the error `Retrieval Timed Out`. -/
theorem retrieve_timed_out (fapi : FullNode) (minerAddr : Address) (pieceCid file : Cid)
    (sel : Selector) (payer : Address) (offer : QueryOffer) (res : RestrievalRes)
    (pre : List RetrievalInfo) (rest : List SelectCase)
    (hw : fapi.WalletDefaultAddress = Except.ok payer)
    (hq : fapi.ClientMinerQueryOffer minerAddr file pieceCid = Except.ok offer)
    (he : offer.Err = "") (hp : offer.MinPrice ≤ 0)
    (hu : fapi.ClientGetRetrievalUpdates = Except.ok ())
    (hr : fapi.ClientRetrieve ⟨offer, payer, some sel⟩ = Except.ok res)
    (hpre : ∀ x ∈ pre, ¬ (x.ID = res.DealID ∧ (x.Status = DealStatus.Completed
      ∨ x.Status = DealStatus.Rejected ∨ x.Status = DealStatus.DealNotFound
      ∨ x.Status = DealStatus.Errored))) :
    retrieve fapi minerAddr pieceCid file sel (pre.map SelectCase.recv ++ SelectCase.ctxDone :: rest)
      = ⟨some (Except.error "Retrieval Timed Out"),
          [ApiCall.WalletDefaultAddress, ApiCall.ClientMinerQueryOffer minerAddr file pieceCid,
            ApiCall.ClientGetRetrievalUpdates, ApiCall.ClientRetrieve ⟨offer, payer, some sel⟩,
            ApiCall.ClientCancelRetrievalDeal res.DealID], rest⟩ ∧
    (∀ (cancel : Nat → Except Err Unit) (sched : List SelectCase),
      retrieve { fapi with ClientCancelRetrievalDeal := cancel } minerAddr pieceCid file sel sched
        = retrieve fapi minerAddr pieceCid file sel sched) ∧
    (∀ evt rest2, evt.ID = res.DealID →
      (evt.Status = DealStatus.Rejected ∨ evt.Status = DealStatus.DealNotFound
        ∨ evt.Status = DealStatus.Errored) →
      (retrieve fapi minerAddr pieceCid file sel
        (pre.map SelectCase.recv ++ SelectCase.recv evt :: rest2)).result
        ≠ some (Except.error "Retrieval Timed Out")) := by
  refine ⟨?_, ?_, ?_⟩
  · rw [retrieve_submitted fapi minerAddr pieceCid file sel _ payer offer res hw hq he hp hu hr,
      readEvents_skip res.DealID pre _ hpre]
    simp [readEvents]
  · intro cancel sched
    rfl
  · intro evt rest2 hid hst
    rw [retrieve_submitted fapi minerAddr pieceCid file sel _ payer offer res hw hq he hp hu hr,
      readEvents_skip res.DealID pre _ hpre]
    have hrej : "Retrieval Proposal Rejected: " ++ evt.Message ≠ "Retrieval Timed Out" := by
      intro h
      have h2 := congrArg String.data h
      simp [String.data_append] at h2
    have herr : "Retrieval Error: " ++ evt.Message ≠ "Retrieval Timed Out" := by
      intro h
      have h2 := congrArg String.data h
      simp [String.data_append] at h2
    rcases hst with hs | hs | hs <;> simp [readEvents, hid, hs, hrej, herr]

/-- C13, at the sample node (deal 7): a progress event of deal 7, then the context is done; the
run returns `Retrieval Timed Out` after issuing the cancellation of deal 7. -/
theorem retrieve_timed_out_witness :
    retrieve (sampleNode 0) "f01" (sampleCid Raw 1) (sampleCid DagProtobuf 2) "sel"
      ([sampleEvt 7 (DealStatus.Other 13) ""].map SelectCase.recv ++ SelectCase.ctxDone :: [])
      = ⟨some (Except.error "Retrieval Timed Out"),
          [ApiCall.WalletDefaultAddress,
            ApiCall.ClientMinerQueryOffer "f01" (sampleCid DagProtobuf 2) (sampleCid Raw 1),
            ApiCall.ClientGetRetrievalUpdates,
            ApiCall.ClientRetrieve ⟨⟨"", sampleCid DagProtobuf 2, some (sampleCid Raw 1), 0, "f01"⟩,
              "f1payer", some "sel"⟩,
            ApiCall.ClientCancelRetrievalDeal 7], []⟩ :=
  (retrieve_timed_out (sampleNode 0) "f01" (sampleCid Raw 1) (sampleCid DagProtobuf 2) "sel"
    "f1payer" ⟨"", sampleCid DagProtobuf 2, some (sampleCid Raw 1), 0, "f01"⟩ ⟨7⟩
    [sampleEvt 7 (DealStatus.Other 13) ""] [] rfl rfl rfl (by decide) rfl rfl (by decide)).1

end RetrieveCalls

/-! ## Theorems : selector specs -/

section Selectors

/-- C14: the `ExploreRecursive` nodes of the specs built for browsing all carry the depth limit
`typeCheckDepth`, which is 15: one such node in the `/deal` spec, in the `/view` root spec of a
request that is not HEAD (none for HEAD), in the `/view` file spec and in the spec of
`getHeadReader`.  The `/view` root spec has one `ExploreRange`, under `Links`, with bounds 0 and
`maxDirTypeChecks`, which is 16.  The `/car` spec has one `ExploreRecursive`, with no limit. -/
theorem browsing_selectors_bounded :
    typeCheckDepth = 15 ∧ maxDirTypeChecks = 16 ∧
    recursionLimits dealSel = [RecursionLimit.Depth typeCheckDepth] ∧
    (∀ method, recursionLimits (viewSel method)
      = if method = "HEAD" then [] else [RecursionLimit.Depth typeCheckDepth]) ∧
    (∀ method, exploreRanges "" (viewSel method)
      = if method = "HEAD" then [] else [("Links", 0, maxDirTypeChecks)]) ∧
    recursionLimits viewFileSel = [RecursionLimit.Depth typeCheckDepth] ∧
    recursionLimits viewHeadSel = [RecursionLimit.Depth typeCheckDepth] ∧
    (∀ pss, headReaderSel pss = pss firstLinkChain) ∧
    recursionLimits firstLinkChain = [RecursionLimit.Depth typeCheckDepth] ∧
    recursionLimits carSel = [RecursionLimit.None] := by
  refine ⟨rfl, rfl, by decide, ?_, ?_, by decide, by decide, fun _ => rfl, by decide, by decide⟩
  · intro method
    by_cases h : method = "HEAD"
    · subst h
      decide
    · simp [viewSel, h, recursionLimits, recursionLimitsFields, recursionLimitsList,
        firstLinkChain]
  · intro method
    by_cases h : method = "HEAD"
    · subst h
      decide
    · simp [viewSel, h, exploreRanges, exploreRangesFields, exploreRangesList, firstLinkChain]

end Selectors

/-! ## Theorems : serving a file -/

section Serve

variable {ρ : Type}

/-- The disposition part holds `Content-Disposition` headers only. -/
theorem dispositionHeader_mem (filename : String) (op : HandlerOp)
    (h : op ∈ dispositionHeader filename) :
    op = HandlerOp.HeaderSet "Content-Disposition" ("inline; filename=\"" ++ filename ++ "\"") := by
  unfold dispositionHeader at h
  split at h
  · simpa using h
  · simp at h

/-- C15: at the end of the `/view` handler for a file, when the extension of the file name maps
to a MIME type the reader is neither sniffed nor repositioned and the content is served with
that type; otherwise the type is sniffed from the reader and the reader is then repositioned
with `Seek(0, io.SeekStart)` before the content is served; when that seek fails the handler
answers with the error `seeker can't seek` and status 500 and serves no content. -/
theorem serveFile_sniff_then_seek (lib : Lib ρ) (SeekTo : ρ → Except Err Unit)
    (filename : String) (rd : ρ) :
    (lib.TypeByExtension (Ext filename) ≠ "" →
      serveFile lib SeekTo filename rd
        = [HandlerOp.HeaderSet "Content-Type" (headerCtype (lib.TypeByExtension (Ext filename)))]
          ++ dispositionHeader filename ++ [HandlerOp.ServeContent filename] ∧
      HandlerOp.DetectReader ∉ serveFile lib SeekTo filename rd ∧
      (∀ o wh, HandlerOp.Seek o wh ∉ serveFile lib SeekTo filename rd)) ∧
    (lib.TypeByExtension (Ext filename) = "" →
      (∀ mimeType, lib.DetectReader rd = Except.ok mimeType → SeekTo rd = Except.ok () →
        serveFile lib SeekTo filename rd
          = [HandlerOp.DetectReader, HandlerOp.Seek 0 SeekStart,
              HandlerOp.HeaderSet "Content-Type" (headerCtype mimeType)]
            ++ dispositionHeader filename ++ [HandlerOp.ServeContent filename]) ∧
      (∀ mimeType e, lib.DetectReader rd = Except.ok mimeType → SeekTo rd = Except.error e →
        serveFile lib SeekTo filename rd
          = [HandlerOp.DetectReader, HandlerOp.Seek 0 SeekStart,
              HandlerOp.Error "seeker can't seek" StatusInternalServerError] ∧
        ∀ name, HandlerOp.ServeContent name ∉ serveFile lib SeekTo filename rd)) := by
  constructor
  · intro hext
    have heq : serveFile lib SeekTo filename rd
        = [HandlerOp.HeaderSet "Content-Type" (headerCtype (lib.TypeByExtension (Ext filename)))]
          ++ dispositionHeader filename ++ [HandlerOp.ServeContent filename] := by
      simp [serveFile, hext]
    refine ⟨heq, ?_, ?_⟩
    · rw [heq]
      intro hmem
      simp only [List.mem_append, List.mem_singleton, reduceCtorEq, false_or, or_false] at hmem
      have := dispositionHeader_mem filename _ hmem
      cases this
    · intro o wh
      rw [heq]
      intro hmem
      simp only [List.mem_append, List.mem_singleton, reduceCtorEq, false_or, or_false] at hmem
      have := dispositionHeader_mem filename _ hmem
      cases this
  · intro hext
    constructor
    · intro mimeType hdet hseek
      simp [serveFile, hext, hdet, hseek]
    · intro mimeType e hdet hseek
      simp [serveFile, hext, hdet, hseek]

/-- C15, with the sample library and the file name `index` (no extension), on a reader of the
PNG signature whose seek fails: the handler sniffs, tries to seek, and answers with status 500
without serving. -/
theorem serveFile_sniff_then_seek_witness :
    serveFile sampleLib (fun _ => Except.error "unseekable") "index" (Except.ok samplePng.RawData)
      = [HandlerOp.DetectReader, HandlerOp.Seek 0 SeekStart,
          HandlerOp.Error "seeker can't seek" StatusInternalServerError] :=
  (((serveFile_sniff_then_seek sampleLib (fun _ => Except.error "unseekable") "index"
    (Except.ok samplePng.RawData)).2 (by decide)).2 "image/png" "unseekable"
    (by decide) rfl).1

/-- C16: the `Content-Type` header written for a served file is `text/html` when the determined
content type begins with `text/html;` and the determined content type unchanged otherwise,
both for a type taken from the extension of the file name and for a sniffed type; the type
`text/html; charset=utf-8` is sent as `text/html`. -/
theorem served_content_type_header (lib : Lib ρ) (SeekTo : ρ → Except Err Unit)
    (filename : String) (rd : ρ) (c : String) :
    (("text/html;".data <+: c.data) → headerCtype c = "text/html") ∧
    (¬ ("text/html;".data <+: c.data) → headerCtype c = c) ∧
    headerCtype "text/html; charset=utf-8" = "text/html" ∧
    (lib.TypeByExtension (Ext filename) = c → c ≠ "" →
      ∀ v, HandlerOp.HeaderSet "Content-Type" v ∈ serveFile lib SeekTo filename rd ↔
        v = headerCtype c) ∧
    (lib.TypeByExtension (Ext filename) = "" → lib.DetectReader rd = Except.ok c →
      SeekTo rd = Except.ok () →
      ∀ v, HandlerOp.HeaderSet "Content-Type" v ∈ serveFile lib SeekTo filename rd ↔
        v = headerCtype c) := by
  have hdisp : ∀ v, HandlerOp.HeaderSet "Content-Type" v ∉ dispositionHeader filename := by
    intro v hmem
    have := dispositionHeader_mem filename _ hmem
    injection this with h1 h2
    exact absurd h1 (by decide)
  refine ⟨?_, ?_, by decide, ?_, ?_⟩
  · intro h
    have : stringsHasPrefix c "text/html;" = true := List.isPrefixOf_iff_prefix.mpr h
    simp [headerCtype, this]
  · intro h
    have : stringsHasPrefix c "text/html;" = false := by
      cases hb : stringsHasPrefix c "text/html;"
      · rfl
      · exact absurd (List.isPrefixOf_iff_prefix.mp hb) h
    simp [headerCtype, this]
  · intro hext hc v
    subst hext
    simp [serveFile, hc, hdisp]
  · intro hext hdet hseek v
    simp [serveFile, hext, hdet, hseek, hdisp]

/-- C16, with the sample library and the file name `page.html`, whose extension maps to
`text/html; charset=utf-8`: the header written is `text/html`. -/
theorem served_content_type_header_witness :
    HandlerOp.HeaderSet "Content-Type" "text/html"
      ∈ serveFile sampleLib (fun _ => Except.ok ()) "page.html" (Except.ok []) :=
  ((served_content_type_header sampleLib (fun _ => Except.ok ()) "page.html" (Except.ok [])
    "text/html; charset=utf-8").2.2.2.1 (by decide) (by decide) "text/html").mpr (by decide)

end Serve

/-! ## Theorems : path selectors -/

section PathSel

/-- C17 (amended): for a path expression that the path-selector parser refuses with the error
`e`, `pathToSel` returns the empty selector together with the error
`failed to parse path-selector: ` followed by `e`, the message of the parser (the path itself is
not added to the message), and the closure of `getCar` returns that same error without any call
of `retrieve` on the full node and without opening the export stream. -/
theorem pathToSel_parse_failure (sl : SelLib) (fapi : FullNode)
    (ClientExportStream : ExportRef → Except Err (Except Err Bytes))
    (psel : String) (ma : Address) (pcid dcid : Cid) (sched : List SelectCase)
    (ss : SelectorSpec) (e : Err)
    (hparse : sl.SelectorSpecFromPath psel false ss = Except.error e) :
    pathToSel sl psel false ss = ("", some ("failed to parse path-selector: " ++ e)) ∧
    (getCar sl fapi ClientExportStream psel ma pcid dcid sched ss).result
      = some (Except.error ("failed to parse path-selector: " ++ e)) ∧
    (getCar sl fapi ClientExportStream psel ma pcid dcid sched ss).calls = [] ∧
    (getCar sl fapi ClientExportStream psel ma pcid dcid sched ss).exported = none := by
  have h1 : pathToSel sl psel false ss = ("", some ("failed to parse path-selector: " ++ e)) := by
    simp [pathToSel, hparse]
  refine ⟨h1, ?_, ?_, ?_⟩ <;> simp [getCar, h1]

/-- C17 (amended), with the sample parser on the path `a//b`: `getCar` returns the parse error
and makes no call. -/
theorem pathToSel_parse_failure_witness :
    (getCar sampleSelLib (sampleNode 0) (fun _ => Except.ok (Except.ok [1])) "a//b" "f01"
      (sampleCid Raw 1) (sampleCid DagProtobuf 2) [] carSel).calls = [] :=
  (pathToSel_parse_failure sampleSelLib (sampleNode 0) (fun _ => Except.ok (Except.ok [1]))
    "a//b" "f01" (sampleCid Raw 1) (sampleCid DagProtobuf 2) [] carSel
    "invalid empty segment at position 1" rfl).2.2.1

set_option maxRecDepth 100000 in
/-- C17, refuted as stated: on the path `a//b`, refused by the sample parser for its empty
segment, the error of `pathToSel` is the parse failure with the message of the parser, and the
path `a//b` occurs nowhere in it. -/
theorem pathToSel_error_omits_path :
    pathToSel sampleSelLib "a//b" false carSel
      = ("", some "failed to parse path-selector: invalid empty segment at position 1") ∧
    ¬ ("a//b".data <:+:
      "failed to parse path-selector: invalid empty segment at position 1".data) := by
  constructor
  · decide
  · decide

end PathSel

/-! ## Theorems : dag-cbor nodes -/

section Cbor

variable {ρ : Type}

/-- C18 (amended): the type check of the `/deal` handler gives a dag-cbor root no description
unless the root was fetched from the DAG service and its bytes decoded: when `dserv.Get` fails,
as it does in the service built by `get` for a block that does not decode by its codec, or when
`cbor.DecodeInto` fails on the bytes of the fetched node, the handler answers with that error;
it describes the root as `DAG-CBOR` only after both succeeded.  `linkDesc` and `parseLinks`
neither fetch nor decode a dag-cbor node: whatever the DAG service answers for it, `linkDesc`
returns the description `DAG-CBOR` with the flag true and no error, and `parseLinks` writes the
description `DAG-CBOR` for a dag-cbor child within the bound. -/
theorem dagcbor_decode_only_at_root (lib : Lib ρ) (dl : DealLib)
    (g : SelectorSpec → Except Err (Cid × DAGService)) (expand : String)
    (root : Cid) (dserv : DAGService)
    (hg : g dealSel = Except.ok (root, dserv)) (hcodec : root.codec = DagCBOR) :
    (∀ e, (dserv.Get root = Except.error e ∨
        ∃ node, dserv.Get root = Except.ok node ∧ dl.DecodeInto node.RawData = Except.error e) →
      dealRootCheck lib dl g expand = Except.error e) ∧
    (∀ decode notFound bs b e, dserv = NewDAGService decode notFound bs →
      (bs.Get root).1 = some b → decode root b = Except.error e →
      dserv.Get root = Except.error e ∧ dealRootCheck lib dl g expand = Except.error e) ∧
    (∀ r, dealRootCheck lib dl g expand = Except.ok r →
      ∃ node, dserv.Get root = Except.ok node ∧ dl.DecodeInto node.RawData = Except.ok () ∧
        r = ⟨"DAG-CBOR", lib.SizeStr node.RawData.length, 0, []⟩) ∧
    (∀ name, linkDesc lib root name dserv = (⟨"DAG-CBOR", true, none⟩, [])) ∧
    (∀ parent lname lsize, checkLink lib parent dserv ⟨lname, lsize, root⟩
      = (Except.ok "DAG-CBOR", [])) ∧
    (∀ parent lname lsize maxChecks, 0 < maxChecks →
      parseLinks lib [⟨lname, lsize, root⟩] parent dserv maxChecks
        = (Except.ok [⟨lname, lib.SizeStr lsize, root, "DAG-CBOR"⟩], [])) := by
  have h1 : DagCBOR ≠ DagProtobuf := by decide
  have h2 : DagCBOR ≠ Raw := by decide
  have hfail : ∀ e, dserv.Get root = Except.error e →
      dealRootCheck lib dl g expand = Except.error e := by
    intro e hget
    simp [dealRootCheck, hg, hget]
  refine ⟨?_, ?_, ?_, ?_, ?_, ?_⟩
  · intro e h
    rcases h with hget | ⟨node, hget, hdec⟩
    · exact hfail e hget
    · simp [dealRootCheck, hg, hget, hcodec, h1, h2, hdec]
  · intro decode notFound bs b e hd hb hdecode
    have hget : dserv.Get root = Except.error e := by
      subst hd
      simp [NewDAGService, hb, hdecode]
    exact ⟨hget, hfail e hget⟩
  · intro r hr
    cases hget : dserv.Get root with
    | error e => simp [dealRootCheck, hg, hget] at hr
    | ok node =>
      cases hdec : dl.DecodeInto node.RawData with
      | error e => simp [dealRootCheck, hg, hget, hcodec, h1, h2, hdec] at hr
      | ok u =>
        simp [dealRootCheck, hg, hget, hcodec, h1, h2, hdec] at hr
        exact ⟨node, rfl, hdec, hr.symm⟩
  · intro name
    simp [linkDesc, hcodec, h1, h2]
  · intro parent lname lsize
    simp [checkLink, hcodec, h1, h2]
  · intro parent lname lsize maxChecks hpos
    have hc : checkLink lib parent dserv ⟨lname, lsize, root⟩ = (Except.ok "DAG-CBOR", []) := by
      simp [checkLink, hcodec, h1, h2]
    simp [parseLinks, parseLinksFrom, hpos, hc]

/-- C18 (amended), on the sample archive whose dag-cbor root is the lone break byte, with the
DAG service built by `get`: the service fails to fetch the root, and the type check of the
`/deal` handler answers with that error. -/
theorem dagcbor_decode_only_at_root_witness :
    sampleBadCborDserv.Get (sampleCid DagCBOR 5) = Except.error "cbor: unexpected break code" ∧
    dealRootCheck sampleLib sampleDealLib sampleBadCborGet ""
      = Except.error "cbor: unexpected break code" :=
  ⟨by decide,
    (dagcbor_decode_only_at_root sampleLib sampleDealLib sampleBadCborGet ""
      (sampleCid DagCBOR 5) sampleBadCborDserv rfl rfl).1 "cbor: unexpected break code"
      (Or.inl (by decide))⟩

/-- C18, refuted as stated: for the dag-cbor root of the sample archive, whose bytes the CBOR
decoder refuses and which the DAG service built by `get` fails to fetch, `linkDesc` returns the
description `DAG-CBOR` without error and without using the service, and `parseLinks` lists a
child with that CID under the description `DAG-CBOR`. -/
theorem dagcbor_undecodable_described :
    sampleDealLib.DecodeInto [0xff] = Except.error "cbor: unexpected break code" ∧
    sampleBadCborDserv.Get (sampleCid DagCBOR 5) = Except.error "cbor: unexpected break code" ∧
    linkDesc sampleLib (sampleCid DagCBOR 5) "x" sampleBadCborDserv
      = (⟨"DAG-CBOR", true, none⟩, []) ∧
    parseLinks sampleLib [⟨"x", 1, sampleCid DagCBOR 5⟩] sampleDir sampleBadCborDserv 16
      = (Except.ok [⟨"x", "1 B", sampleCid DagCBOR 5, "DAG-CBOR"⟩], []) := by
  decide

end Cbor

/-! ## Theorems : the structural dump of the `/view` handler -/

section Dump

variable {ρ : Type}

/-- C19, the code at a failing input: the root is a dag-cbor map whose key `child` links to a
dag-pb node with a truncated UnixFS descriptor.  `linkDesc` fails on the link, `dumpNode`
returns the error `link desc: unexpected EOF`, and the dag-cbor case of the handler returns
having only set the header `X-HumanSize`: no `http.Error`, no status, no page. -/
theorem viewCbor_dump_error_unanswered :
    dumpNode sampleLib (sampleDserv [(sampleCid DagProtobuf 2, sampleBadPb)])
        (IpldNode.Map [("child", IpldNode.Link (IpldLink.cid (sampleCid DagProtobuf 2) "bafy2"))]
          none) "/view/f01/baga/bafy/"
      = Except.error "link desc: unexpected EOF" ∧
    viewCbor sampleLib sampleViewLib sampleCborRoot 16
        (sampleDserv [(sampleCid DagProtobuf 2, sampleBadPb)]) "/view/f01/baga/bafy/"
      = [HandlerOp.HeaderSet "X-HumanSize" "16 B"] := by
  decide

/-- Whenever `dumpNode` fails on the loaded root, the dag-cbor case of the `/view` handler
writes no error response. -/
theorem viewCbor_dump_error (lib : Lib ρ) (vl : ViewLib) (node : Node) (size : Nat)
    (dserv : DAGService) (urlPath : String) (startNode : IpldNode) (e : Err)
    (hc : vl.Choose = Except.ok ()) (hl : vl.Load node = Except.ok startNode)
    (hd : dumpNode lib dserv startNode urlPath = Except.error e) :
    viewCbor lib vl node size dserv urlPath = [HandlerOp.HeaderSet "X-HumanSize" (lib.SizeStr size)] := by
  simp [viewCbor, hc, hl, hd]

end Dump

/-! ## Theorems : the content type of raw children -/

section RawChild

variable {ρ : Type}

/-- In `parseLinks`, the check of a raw child whose name has no extension with a known type
sniffs the reader over the bytes of the node argument of `parseLinks`, and makes no use of the
DAG service. -/
theorem checkLink_raw_sniffs_node (lib : Lib ρ) (node : Node) (dserv : DAGService) (l : Link)
    (hraw : l.Cid.codec = Raw) (hext : lib.TypeByExtension (Ext l.Name) = "") (ctype : String)
    (hdet : lib.DetectReader (lib.NewReader node.RawData) = Except.ok ctype) :
    checkLink lib node dserv l = (Except.ok ("FILE (" ++ ctype ++ ")"), []) := by
  have h1 : Raw ≠ DagProtobuf := by decide
  simp [checkLink, fileCtype, hraw, h1, hext, hdet]

/-- C21, the code at a failing input: a directory whose node bytes are not an image, with one
raw child named `pic` whose block is the PNG signature, within the bound 16.  `parseLinks`
never fetches the child and describes it by the type sniffed from the bytes of the directory
node, `application/octet-stream`, where the bytes of the child sniff as `image/png` and
`linkDesc` describes the same CID as `FILE (raw,image/png)`. -/
theorem parseLinks_raw_child_sniffs_parent :
    parseLinks sampleLib [⟨"pic", 8, sampleCid Raw 9⟩] sampleDir
        (sampleDserv [(sampleCid Raw 9, samplePng)]) 16
      = (Except.ok [⟨"pic", "8 B", sampleCid Raw 9, "FILE (application/octet-stream)"⟩], []) ∧
    sampleLib.DetectReader (sampleLib.NewReader samplePng.RawData) = Except.ok "image/png" ∧
    sampleLib.DetectReader (sampleLib.NewReader sampleDir.RawData)
      = Except.ok "application/octet-stream" ∧
    (linkDesc sampleLib (sampleCid Raw 9) "pic" (sampleDserv [(sampleCid Raw 9, samplePng)])).1
      = ⟨"FILE (raw,image/png)", true, none⟩ := by
  decide

end RawChild

/-! ## Theorems : the `/ping/miner/{id}` handler -/

section Ping

/-- Whenever the miner info is obtained and has no peer ID, the ping handler panics on the nil
error before anything is written to the response. -/
theorem pingMiner_nil_peer (api : PingApi) (id : String) (a : Address) (mi : PingMinerInfo)
    (ha : api.NewFromString id = Except.ok a) (hmi : api.StateMinerInfo a = Except.ok mi)
    (hpeer : mi.PeerId = none) :
    pingMiner api id = ⟨[], none, some nilDereference⟩ := by
  simp [pingMiner, ha, hmi, hpeer]

/-- C23, the code at a failing input: the miner info of `f01000` is obtained and has no peer
ID.  The handler evaluates `err.Error()` on the nil error of the successful call: it panics with
a nil dereference, and no error response, header or body is written. -/
theorem pingMiner_nil_peer_panics :
    (samplePingApi none).StateMinerInfo "f01000" = Except.ok ⟨none, []⟩ ∧
    pingMiner (samplePingApi none) "f01000" = ⟨[], none, some nilDereference⟩ ∧
    (∀ msg code, HandlerOp.Error msg code ∉ (pingMiner (samplePingApi none) "f01000").ops) := by
  refine ⟨rfl, by decide, ?_⟩
  intro msg code
  have h : (pingMiner (samplePingApi none) "f01000").ops = [] := by decide
  rw [h]
  simp

end Ping

end Dataexpl

/-! ## Theorems : withdrawing the miner balance -/

namespace Impl

open Dataexpl

/-- C20: every message pushed by `BeneficiaryWithdrawBalance` has `From` equal to the
beneficiary address of the miner info, and every message pushed by `ActorWithdrawBalance` has
`From` equal to its owner address; in both `To` is the miner address, `Value` is 0 and `Method`
is the miner method `WithdrawBalance`.  When the balance, the parameters and the miner info are
obtained and the amount does not exceed the balance, that message is pushed.  The withdraw
command calls the first when the beneficiary flag is set, the second otherwise. -/
theorem withdraw_message_sender (a : FullNodeAPI) (maddr : Address) (amount : Int) :
    (∀ msg, NodeCall.MpoolPushMessage msg ∈ (BeneficiaryWithdrawBalance a maddr amount).2 →
      ∃ mi, a.StateMinerInfo maddr = Except.ok mi ∧ msg.From = mi.Beneficiary ∧
        msg.To = maddr ∧ msg.Value = 0 ∧ msg.Method = MethodsMinerWithdrawBalance) ∧
    (∀ msg, NodeCall.MpoolPushMessage msg ∈ (ActorWithdrawBalance a maddr amount).2 →
      ∃ mi, a.StateMinerInfo maddr = Except.ok mi ∧ msg.From = mi.Owner ∧
        msg.To = maddr ∧ msg.Value = 0 ∧ msg.Method = MethodsMinerWithdrawBalance) ∧
    (∀ available params mi, a.StateMinerAvailableBalance maddr = Except.ok available →
      amount ≤ available →
      a.SerializeParams (if amount = 0 then available else amount) = Except.ok params →
      a.StateMinerInfo maddr = Except.ok mi →
      NodeCall.MpoolPushMessage ⟨maddr, mi.Beneficiary, 0, MethodsMinerWithdrawBalance, params⟩
        ∈ (BeneficiaryWithdrawBalance a maddr amount).2 ∧
      NodeCall.MpoolPushMessage ⟨maddr, mi.Owner, 0, MethodsMinerWithdrawBalance, params⟩
        ∈ (ActorWithdrawBalance a maddr amount).2) ∧
    withdrawCmdCall a true maddr amount = BeneficiaryWithdrawBalance a maddr amount ∧
    withdrawCmdCall a false maddr amount = ActorWithdrawBalance a maddr amount ∧
    MethodsMinerWithdrawBalance = 16 := by
  have key : ∀ fromOwner msg, NodeCall.MpoolPushMessage msg ∈ (withdrawBalance a maddr amount fromOwner).2 →
      ∃ mi, a.StateMinerInfo maddr = Except.ok mi ∧
        msg.From = (if fromOwner then mi.Owner else mi.Beneficiary) ∧
        msg.To = maddr ∧ msg.Value = 0 ∧ msg.Method = MethodsMinerWithdrawBalance := by
    intro fromOwner msg hmem
    unfold withdrawBalance at hmem
    cases hb : a.StateMinerAvailableBalance maddr with
    | error e => simp [hb] at hmem
    | ok available =>
      by_cases hgt : amount > available
      · simp [hb, hgt] at hmem
      · cases hs : a.SerializeParams (if amount = 0 then available else amount) with
        | error e => simp [hb, hgt, hs] at hmem
        | ok params =>
          cases hi : a.StateMinerInfo maddr with
          | error e => simp [hb, hgt, hs, hi] at hmem
          | ok mi =>
            refine ⟨mi, rfl, ?_⟩
            cases hp : a.MpoolPushMessage ⟨maddr, (if fromOwner then mi.Owner else mi.Beneficiary),
                0, MethodsMinerWithdrawBalance, params⟩ with
            | error e =>
              simp [hb, hgt, hs, hi, hp] at hmem
              subst hmem
              exact ⟨rfl, rfl, rfl, rfl⟩
            | ok c =>
              simp [hb, hgt, hs, hi, hp] at hmem
              subst hmem
              exact ⟨rfl, rfl, rfl, rfl⟩
  refine ⟨?_, ?_, ?_, rfl, rfl, rfl⟩
  · intro msg hmem
    simpa using key false msg hmem
  · intro msg hmem
    simpa using key true msg hmem
  · intro available params mi hb hle hs hi
    have hgt : ¬ amount > available := not_lt.mpr hle
    constructor
    · unfold BeneficiaryWithdrawBalance withdrawBalance
      cases hp : a.MpoolPushMessage ⟨maddr, mi.Beneficiary, 0, MethodsMinerWithdrawBalance, params⟩ <;>
        simp [hb, hgt, hs, hi, hp]
    · unfold ActorWithdrawBalance withdrawBalance
      cases hp : a.MpoolPushMessage ⟨maddr, mi.Owner, 0, MethodsMinerWithdrawBalance, params⟩ <;>
        simp [hb, hgt, hs, hi, hp]

/-- C20, at the sample node with the amount 40: the beneficiary method pushes a message from
`f0benef` to the miner. -/
theorem withdraw_message_sender_witness :
    NodeCall.MpoolPushMessage ⟨"f01000", "f0benef", 0, MethodsMinerWithdrawBalance, [0x81, 40]⟩
      ∈ (BeneficiaryWithdrawBalance sampleApi "f01000" 40).2 :=
  ((withdraw_message_sender sampleApi "f01000" 40).2.2.1 100 [0x81, 40] ⟨"f0owner", "f0benef"⟩
    rfl (by decide) rfl rfl).1

/-- C22: with the available balance `available` of the miner obtained, when the requested
amount exceeds it `withdrawBalance` returns the error `can't withdraw more funds than available`
(with both amounts) having called neither `StateMinerInfo` nor `MpoolPushMessage`; otherwise the
parameters of every pushed message are the serialization of `AmountRequested` equal to
`available` when the requested amount is 0 and to the requested amount otherwise, which is never
more than `available`; and when the parameters and the miner info are obtained, that message is
pushed. -/
theorem withdraw_amount_requested (a : FullNodeAPI) (maddr : Address) (amount : Int)
    (fromOwner : Bool) (available : Int)
    (hb : a.StateMinerAvailableBalance maddr = Except.ok available) :
    (amount > available →
      withdrawBalance a maddr amount fromOwner
        = (Except.error ("can't withdraw more funds than available; requested: " ++ a.FIL amount
            ++ "; available: " ++ a.FIL available), [NodeCall.StateMinerAvailableBalance maddr]) ∧
      NodeCall.StateMinerInfo maddr ∉ (withdrawBalance a maddr amount fromOwner).2 ∧
      ∀ msg, NodeCall.MpoolPushMessage msg ∉ (withdrawBalance a maddr amount fromOwner).2) ∧
    (∀ msg, NodeCall.MpoolPushMessage msg ∈ (withdrawBalance a maddr amount fromOwner).2 →
      amount ≤ available ∧
      a.SerializeParams (if amount = 0 then available else amount) = Except.ok msg.Params ∧
      (if amount = 0 then available else amount) ≤ available) ∧
    (amount = 0 → ∀ msg, NodeCall.MpoolPushMessage msg ∈ (withdrawBalance a maddr amount fromOwner).2 →
      a.SerializeParams available = Except.ok msg.Params) ∧
    (amount ≠ 0 → ∀ msg, NodeCall.MpoolPushMessage msg ∈ (withdrawBalance a maddr amount fromOwner).2 →
      a.SerializeParams amount = Except.ok msg.Params) ∧
    (amount ≤ available → ∀ params mi,
      a.SerializeParams (if amount = 0 then available else amount) = Except.ok params →
      a.StateMinerInfo maddr = Except.ok mi →
      ∃ msg, NodeCall.MpoolPushMessage msg ∈ (withdrawBalance a maddr amount fromOwner).2 ∧
        msg.Params = params) := by
  have key : ∀ msg, NodeCall.MpoolPushMessage msg ∈ (withdrawBalance a maddr amount fromOwner).2 →
      amount ≤ available ∧
      a.SerializeParams (if amount = 0 then available else amount) = Except.ok msg.Params := by
    intro msg hmem
    unfold withdrawBalance at hmem
    by_cases hgt : amount > available
    · simp [hb, hgt] at hmem
    · refine ⟨not_lt.mp hgt, ?_⟩
      cases hs : a.SerializeParams (if amount = 0 then available else amount) with
      | error e => simp [hb, hgt, hs] at hmem
      | ok params =>
        cases hi : a.StateMinerInfo maddr with
        | error e => simp [hb, hgt, hs, hi] at hmem
        | ok mi =>
          cases hp : a.MpoolPushMessage ⟨maddr, (if fromOwner then mi.Owner else mi.Beneficiary),
              0, MethodsMinerWithdrawBalance, params⟩ with
          | error e =>
            simp [hb, hgt, hs, hi, hp] at hmem
            subst hmem
            rfl
          | ok c =>
            simp [hb, hgt, hs, hi, hp] at hmem
            subst hmem
            rfl
  refine ⟨?_, ?_, ?_, ?_, ?_⟩
  · intro hgt
    simp [withdrawBalance, hb, hgt]
  · intro msg hmem
    obtain ⟨hle, hs⟩ := key msg hmem
    refine ⟨hle, hs, ?_⟩
    by_cases h0 : amount = 0
    · simp [h0]
    · simpa [h0] using hle
  · intro h0 msg hmem
    have := (key msg hmem).2
    simpa [h0] using this
  · intro h0 msg hmem
    have := (key msg hmem).2
    simpa [h0] using this
  · intro hle params mi hs hi
    have hgt : ¬ amount > available := not_lt.mpr hle
    refine ⟨⟨maddr, (if fromOwner then mi.Owner else mi.Beneficiary), 0,
      MethodsMinerWithdrawBalance, params⟩, ?_, rfl⟩
    unfold withdrawBalance
    cases hp : a.MpoolPushMessage ⟨maddr, (if fromOwner then mi.Owner else mi.Beneficiary), 0,
        MethodsMinerWithdrawBalance, params⟩ <;> simp [hb, hgt, hs, hi, hp]

/-- C22, at the sample node (100 available) with the amount 150: the error of the balance check
after the balance query alone. -/
theorem withdraw_amount_requested_witness :
    withdrawBalance sampleApi "f01000" 150 true
      = (Except.error ("can't withdraw more funds than available; requested: "
          ++ sampleApi.FIL 150 ++ "; available: " ++ sampleApi.FIL 100),
          [NodeCall.StateMinerAvailableBalance "f01000"]) :=
  ((withdraw_amount_requested sampleApi "f01000" 150 true 100 rfl).1 (by decide)).1

/-- Whenever the withdraw message was pushed and `StateWaitMsg` answers an error with a nil
lookup, the action panics on reading `wait.Message`. -/
theorem withdrawAction_wait_error (env : CmdEnv) (a : FullNodeAPI) (arg0 arg1 : String)
    (beneficiarySet : Bool) (confidence : Int) (maddr : Address) (amount : Int) (res : Cid)
    (calls : List NodeCall) (e : Err)
    (hapi : env.GetFullNodeAPIV1 = Except.ok ())
    (haddr : env.NewFromString arg0 = Except.ok maddr)
    (hfil : env.ParseFIL arg1 = Except.ok amount)
    (hcall : withdrawCmdCall a beneficiarySet maddr amount = (Except.ok res, calls))
    (hwait : env.StateWaitMsg res (confidence % 2 ^ 64).toNat = (none, some e)) :
    (withdrawAction env a [arg0, arg1] beneficiarySet confidence).result
      = ActionResult.panicked nilDereference := by
  simp only [withdrawAction, hapi, haddr, hfil, hcall, hwait]

/-- C24, the code at a failing input: `withdraw f01000 40` at the sample node, where
`StateWaitMsg` answers the error `context deadline exceeded` and a nil lookup.  After pushing the
message and printing the first line, the action reads `wait.Message` through the nil lookup and
panics; it returns no error. -/
theorem withdrawAction_nil_lookup_panics :
    withdrawAction (sampleEnv (none, some "context deadline exceeded")) sampleApi
        ["f01000", "40"] false 5
      = ⟨ActionResult.panicked nilDereference,
          [NodeCall.StateMinerAvailableBalance "f01000", NodeCall.StateMinerInfo "f01000",
            NodeCall.MpoolPushMessage ⟨"f01000", "f0owner", 0, MethodsMinerWithdrawBalance,
              [0x81, 40]⟩],
          ["Requested withdrawal in message bafy113\nwaiting for it to be included in a block..\n"]⟩ ∧
    (withdrawAction (sampleEnv (none, some "context deadline exceeded")) sampleApi
        ["f01000", "40"] false 5).result
      ≠ ActionResult.returned (some ("Timeout waiting for withdrawal message " ++ "bafy113")) := by
  decide

end Impl
